import Mathlib

set_option maxRecDepth 8192

namespace Felicity

/-! Shallow embedding of the Felicity backend registration and team
subsystem: the mongoose schemas (Event, Registration, Team) and the
controller functions of eventController.js, participantController.js,
organizerController.js and teamController.js, with the database modelled
as an explicit state record and each HTTP handler as a state-passing
function. Wall-clock time is an integer passed per request; generated
identifiers (uuid ticket ids, team invite codes, document ids) are drawn
from fresh-supply counters, modelling the generators together with the
unique indexes that back them. -/

/-- Registration status enum of the registration schema. -/
inductive RegStatus where
  | PENDING
  | CONFIRMED
  | REJECTED
  | CANCELLED
deriving DecidableEq, Repr

/-- Payment status values written by the controllers. The merch order
schema enum admits only PENDING, APPROVED and REJECTED; the constructor
PAID is included because registerForMerchEvent writes the string PAID for
zero-total orders, which the schema validation then rejects. -/
inductive PayStatus where
  | PENDING
  | APPROVED
  | REJECTED
  | PAID
deriving DecidableEq, Repr

/-- Event type enum of the event schema. -/
inductive EventType where
  | NORMAL
  | MERCH
deriving DecidableEq, Repr

/-- Event status enum of the event schema. -/
inductive EventStatus where
  | DRAFT
  | PUBLISHED
  | ONGOING
  | CLOSED
  | COMPLETED
  | CANCELLED
deriving DecidableEq, Repr

/-- Team status enum of the team schema. -/
inductive TeamStatus where
  | FORMING
  | COMPLETE
  | REGISTERED
  | CANCELLED
deriving DecidableEq, Repr

/-- Team member status enum of the team member subschema. -/
inductive MemberStatus where
  | PENDING
  | ACCEPTED
  | DECLINED
deriving DecidableEq, Repr

/-- A merchandise variant (size x color x stock) of the event schema. -/
structure Variant where
  size : String
  color : String
  stock : Int
deriving DecidableEq, Repr

/-- A merchandise item of the event schema. -/
structure MerchItem where
  sku : String
  name : String
  variants : List Variant
  purchaseLimitPerUser : Option Int
deriving DecidableEq, Repr

/-- The event document. merchandiseFee is read by registerForMerchEvent
but is not declared in the event schema, so on documents produced by this
backend it is always absent (none, read as 0). -/
structure Event where
  organizerId : Nat
  title : String
  etype : EventType
  status : EventStatus
  registrationDeadline : Option Int
  eventStartDate : Option Int
  maxParticipants : Option Int
  fee : Int
  merchandiseFee : Option Int
  eligibility : List String
  allowTeams : Bool
  minTeamSize : Option Int
  maxTeamSize : Option Int
  items : List MerchItem
  formLocked : Bool
deriving DecidableEq, Repr

/-- The parsed JSON of a qr payload. Individual registrations carry a
registrationId field holding the ticket id; the payloads generated for
team registrations carry a ticketId field instead and no registrationId,
which is what checkIn looks up, so registrationId is an Option. -/
structure QrPayload where
  registrationId : Option Nat
  eventId : Nat
  participantId : Nat
deriving DecidableEq, Repr

/-- The embedded merch order subdocument of a registration. -/
structure MerchOrder where
  sku : String
  name : String
  size : String
  color : String
  quantity : Int
  price : Int
  amountPaid : Int
  paymentStatus : PayStatus
  paymentProof : Option String
  rejectionReason : Option String
deriving DecidableEq, Repr

/-- The registration document; rid models the mongo document id. -/
structure Registration where
  rid : Nat
  eventId : Nat
  participantId : Nat
  teamId : Option Nat
  rtype : EventType
  status : RegStatus
  ticketId : Nat
  qrPayload : Option QrPayload
  attended : Bool
  attendedAt : Option Int
  order : Option MerchOrder
deriving DecidableEq, Repr

/-- A member entry of the team document. -/
structure TeamMember where
  userId : Nat
  status : MemberStatus
  joinedAt : Option Int
deriving DecidableEq, Repr

/-- The team document. -/
structure Team where
  teamName : String
  eventId : Nat
  teamLeader : Nat
  teamSize : Int
  members : List TeamMember
  inviteCode : Nat
  status : TeamStatus
  completedAt : Option Int
  registeredAt : Option Int
deriving DecidableEq, Repr

/-- The persistent state: the three collections plus the fresh-supply
counters for document ids, ticket ids, team ids and invite codes. -/
structure DB where
  events : List (Nat × Event)
  regs : List Registration
  teams : List (Nat × Team)
  nextRid : Nat
  nextTicket : Nat
  nextTeamId : Nat
  nextCode : Nat
deriving DecidableEq, Repr

/-- The enum of the merch order schema paymentStatus field. -/
def merchPayEnum : List PayStatus := [PayStatus.PENDING, PayStatus.APPROVED, PayStatus.REJECTED]

/-- Mongoose validation of the order subdocument: paymentStatus must be in
the schema enum. -/
def MerchOrder.schemaValid (o : MerchOrder) : Bool :=
  merchPayEnum.contains o.paymentStatus

/-- Mongoose validation of a registration document (the only constraint
the embedding needs is the order paymentStatus enum). -/
def Registration.schemaValid (r : Registration) : Bool :=
  match r.order with
  | none => true
  | some o => o.schemaValid

/-- Mongoose validation of a team document: teamSize has min 2. -/
def Team.schemaValid (t : Team) : Bool :=
  decide (2 ≤ t.teamSize)

/-- HTTP-style outcome of a handler: ok status/value or error status/message. -/
inductive Resp (α : Type) where
  | ok (code : Nat) (val : α)
  | err (code : Nat) (msg : String)
deriving DecidableEq, Repr

def Resp.isOk {α : Type} : Resp α → Bool
  | .ok _ _ => true
  | .err _ _ => false

def findEvent (db : DB) (eid : Nat) : Option Event :=
  (db.events.find? (fun p => p.1 == eid)).map Prod.snd

def updateEvent (db : DB) (eid : Nat) (e : Event) : DB :=
  { db with events := db.events.map (fun p => if p.1 == eid then (eid, e) else p) }

def findReg (db : DB) (rid : Nat) : Option Registration :=
  db.regs.find? (fun r => r.rid == rid)

def findRegByPair (db : DB) (eid uid : Nat) : Option Registration :=
  db.regs.find? (fun r => r.eventId == eid && r.participantId == uid)

def findRegByTicket (db : DB) (eid : Nat) (t : Option Nat) : Option Registration :=
  match t with
  | none => none
  | some tk => db.regs.find? (fun r => r.ticketId == tk && r.eventId == eid)

/-- deleteOne: removes the first document with the given id. -/
def deleteReg (db : DB) (rid : Nat) : DB :=
  { db with regs := db.regs.eraseP (fun r => r.rid == rid) }

/-- Replace the first document with the given id (mongo ids are the
primary key, so at most one document matches). -/
def updateReg1 : List Registration → Nat → Registration → List Registration
  | [], _, _ => []
  | r :: rest, rid, r1 => if r.rid == rid then r1 :: rest else r :: updateReg1 rest rid r1

/-- Saving an updated registration document back under its id. -/
def updateReg (db : DB) (rid : Nat) (r1 : Registration) : DB :=
  { db with regs := updateReg1 db.regs rid r1 }

/-- Saving a new registration document: schema validation plus the unique
index on ticketId. -/
def insertReg (db : DB) (r : Registration) : Option DB :=
  if r.schemaValid && db.regs.all (fun x => x.ticketId != r.ticketId) then
    some { db with regs := db.regs ++ [r] }
  else none

/-- Count of registrations for the event with status other than CANCELLED. -/
def countNonCancelled (db : DB) (eid : Nat) : Nat :=
  db.regs.countP (fun r => r.eventId == eid && r.status != RegStatus.CANCELLED)

/-- Count of all registrations for the event. -/
def countAllRegs (db : DB) (eid : Nat) : Nat :=
  db.regs.countP (fun r => r.eventId == eid)

def findTeam (db : DB) (tid : Nat) : Option Team :=
  (db.teams.find? (fun p => p.1 == tid)).map Prod.snd

def findTeamByCode (db : DB) (code : Nat) : Option (Nat × Team) :=
  db.teams.find? (fun p => p.2.inviteCode == code)

def updateTeam (db : DB) (tid : Nat) (t : Team) : DB :=
  { db with teams := db.teams.map (fun p => if p.1 == tid then (tid, t) else p) }

def findItem (e : Event) (sku : String) : Option MerchItem :=
  e.items.find? (fun i => i.sku == sku)

def MerchItem.findVariant (it : MerchItem) (size color : String) : Option Variant :=
  it.variants.find? (fun v => v.size == size && v.color == color)

/-- In-place mutation of the first matching variant, as the controllers do
after items.find / variants.find. -/
def adjustVariants : List Variant → String → String → (Int → Int) → List Variant
  | [], _, _, _ => []
  | v :: rest, size, color, f =>
    if v.size == size && v.color == color then { v with stock := f v.stock } :: rest
    else v :: adjustVariants rest size color f

def adjustItems : List MerchItem → String → String → String → (Int → Int) → List MerchItem
  | [], _, _, _, _ => []
  | i :: rest, sku, size, color, f =>
    if i.sku == sku then { i with variants := adjustVariants i.variants size color f } :: rest
    else i :: adjustItems rest sku size color f

def adjustStock (e : Event) (sku size color : String) (f : Int → Int) : Event :=
  { e with items := adjustItems e.items sku size color f }

def getStock (db : DB) (eid : Nat) (sku size color : String) : Option Int :=
  match findEvent db eid with
  | none => none
  | some e =>
    match findItem e sku with
    | none => none
    | some it => (it.findVariant size color).map Variant.stock

/-- The capacity guard of the registration controllers: JS
`event.maxParticipants && registrationCount >= event.maxParticipants`,
where a maxParticipants of 0 is falsy (unlimited). -/
def capacityFull (mp : Option Int) (cnt : Nat) : Bool :=
  match mp with
  | some n => n != 0 && decide (n ≤ (cnt : Int))
  | none => false

/-- Eligibility guard: a non-empty eligibility list requires the
participant type to be present and listed. -/
def eligibilityFails (e : Event) (pt : Option String) : Bool :=
  !e.eligibility.isEmpty &&
    (match pt with
     | none => true
     | some s => !e.eligibility.contains s)

/-- registerForEvent deadline guard one: a set registrationDeadline in the
past. -/
def regDeadlinePassed (e : Event) (now : Int) : Bool :=
  match e.registrationDeadline with
  | some d => decide (d < now)
  | none => false

/-- registerForEvent deadline guard two: no registrationDeadline and the
event start date in the past. -/
def startPassedNoDeadline (e : Event) (now : Int) : Bool :=
  match e.registrationDeadline, e.eventStartDate with
  | none, some s => decide (s < now)
  | _, _ => false

/-- registerForMerchEvent deadline guard: registrationDeadline, else the
event start date, in the past. -/
def merchDeadlinePassed (e : Event) (now : Int) : Bool :=
  match e.registrationDeadline, e.eventStartDate with
  | some d, _ => decide (d < now)
  | none, some s => decide (s < now)
  | none, none => false

/-- Tail of registerForEvent after the duplicate-registration handling:
capacity check, eligibility check, document construction and save, then
the form lock after the first registration. -/
def registerForEventCore (eid uid : Nat) (pt : Option String) (db : DB) (e : Event) :
    Resp Registration × DB :=
  if capacityFull e.maxParticipants (countNonCancelled db eid) then
    (.err 400 "Event has reached maximum participant limit", db)
  else if eligibilityFails e pt then
    (.err 403 "You do not meet the eligibility criteria for this event", db)
  else
    let ticket := db.nextTicket
    let regFee := e.fee
    let needsPayment := decide (0 < regFee)
    let qr : Option QrPayload :=
      if needsPayment then none
      else some { registrationId := some ticket, eventId := eid, participantId := uid }
    let reg : Registration :=
      { rid := db.nextRid, eventId := eid, participantId := uid, teamId := none,
        rtype := EventType.NORMAL,
        status := if needsPayment then RegStatus.PENDING else RegStatus.CONFIRMED,
        ticketId := ticket, qrPayload := qr, attended := false, attendedAt := none,
        order :=
          if needsPayment then
            some { sku := "REGISTRATION_FEE", name := "Event Registration",
                   size := "-", color := "-", quantity := 1, price := regFee,
                   amountPaid := regFee, paymentStatus := PayStatus.PENDING,
                   paymentProof := none, rejectionReason := none }
          else none }
    match insertReg { db with nextRid := db.nextRid + 1, nextTicket := db.nextTicket + 1 } reg with
    | none => (.err 500 "Server error", db)
    | some db1 =>
      let db2 :=
        if countAllRegs db1 eid == 1 && !e.formLocked
        then updateEvent db1 eid { e with formLocked := true } else db1
      (.ok 201 reg, db2)

/-- Embedding of registerForEvent (eventController.js). pt is the stored
participantType of the calling user (the User collection is an external
read-only collaborator). -/
def registerForEvent (now : Int) (eid uid : Nat) (pt : Option String) (db : DB) :
    Resp Registration × DB :=
  match findEvent db eid with
  | none => (.err 404 "Event not found", db)
  | some e =>
    if e.status != EventStatus.PUBLISHED then
      (.err 403 "Forbidden: Event is not published", db)
    else if e.etype == EventType.MERCH then
      (.err 400 "This is a merchandise event. Please use the merchandise registration endpoint.", db)
    else if e.allowTeams then
      (.err 400 "This event requires team registration. Please create or join a team first.", db)
    else if regDeadlinePassed e now then
      (.err 400 "Registration deadline has passed", db)
    else if startPassedNoDeadline e now then
      (.err 400 "Event has already started - registrations closed", db)
    else
      match findRegByPair db eid uid with
      | some ex =>
        if ex.status == RegStatus.REJECTED || ex.status == RegStatus.CANCELLED then
          registerForEventCore eid uid pt (deleteReg db ex.rid) e
        else (.err 400 "You have already registered for this event", db)
      | none => registerForEventCore eid uid pt db e

/-- The optional order body of a merchandise registration request. -/
structure OrderReq where
  sku : Option String
  variant : Option (String × String)
  quantity : Option Int
deriving DecidableEq, Repr

/-- JS `!order || !order.sku`: a missing order, a missing sku, or an empty
sku string are all falsy, giving the registration-fee-only path. -/
def isRegOnlyReq : Option OrderReq → Bool
  | none => true
  | some o =>
    match o.sku with
    | none => true
    | some s => s == ""

/-- JS `Number(event.merchandiseFee || 0)`. -/
def merchFeeOf (e : Event) : Int :=
  match e.merchandiseFee with
  | some m => m
  | none => 0

/-- Shared document construction and save of both registerForMerchEvent
cases; total decides PENDING-with-order versus immediate CONFIRMED, and
the zero-total path writes paymentStatus PAID, which the order schema
enum rejects at save (hence the 500 error branch). -/
def mkMerchRegistration (eid uid : Nat) (db : DB)
    (sku nm size color : String) (qty price total : Int) : Resp Registration × DB :=
  let needsPayment := decide (0 < total)
  let ticket := db.nextTicket
  let qr : Option QrPayload :=
    if needsPayment then none
    else some { registrationId := some ticket, eventId := eid, participantId := uid }
  let reg : Registration :=
    { rid := db.nextRid, eventId := eid, participantId := uid, teamId := none,
      rtype := EventType.MERCH,
      status := if needsPayment then RegStatus.PENDING else RegStatus.CONFIRMED,
      ticketId := ticket, qrPayload := qr, attended := false, attendedAt := none,
      order := some
        { sku := sku, name := nm, size := size, color := color, quantity := qty,
          price := price, amountPaid := total,
          paymentStatus := if needsPayment then PayStatus.PENDING else PayStatus.PAID,
          paymentProof := none, rejectionReason := none } }
  match insertReg { db with nextRid := db.nextRid + 1, nextTicket := db.nextTicket + 1 } reg with
  | none => (.err 500 "Server error", db)
  | some db1 => (.ok 201 reg, db1)

/-- Tail of registerForMerchEvent after the duplicate handling: capacity
and eligibility checks, then case A (registration only) or case B
(registration plus merch purchase). -/
def registerForMerchCore (eid uid : Nat) (pt : Option String) (oreq : Option OrderReq)
    (db : DB) (e : Event) : Resp Registration × DB :=
  if capacityFull e.maxParticipants (countNonCancelled db eid) then
    (.err 400 "Event has reached maximum participant limit", db)
  else if eligibilityFails e pt then
    (.err 403 "You do not meet the eligibility criteria for this event", db)
  else
    let registrationFee := e.fee
    let merchandiseFee := merchFeeOf e
    if isRegOnlyReq oreq then
      mkMerchRegistration eid uid db "REGISTRATION_FEE" "Event Registration" "-" "-"
        1 registrationFee registrationFee
    else
      match oreq with
      | none => (.err 400 "Order details (sku, variant, quantity) are required", db)
      | some o =>
        match o.variant, o.quantity with
        | none, _ => (.err 400 "Order details (sku, variant, quantity) are required", db)
        | _, none => (.err 400 "Order details (sku, variant, quantity) are required", db)
        | some (vsize, vcolor), some qty =>
          match findItem e (o.sku.getD "") with
          | none => (.err 400 "Invalid item selected", db)
          | some it =>
            match it.findVariant vsize vcolor with
            | none => (.err 400 "Invalid variant selected", db)
            | some v =>
              if decide (v.stock < qty) then
                (.err 400 "Selected quantity exceeds available stock", db)
              else if (match it.purchaseLimitPerUser with
                       | some l => l != 0 && decide (l < qty)
                       | none => false) then
                (.err 400 "You can only purchase up to the per-user limit of this item", db)
              else
                mkMerchRegistration eid uid db it.sku it.name vsize vcolor qty
                  merchandiseFee (registrationFee + merchandiseFee * qty)

/-- Embedding of registerForMerchEvent (eventController.js). -/
def registerForMerchEvent (now : Int) (eid uid : Nat) (pt : Option String)
    (oreq : Option OrderReq) (db : DB) : Resp Registration × DB :=
  match findEvent db eid with
  | none => (.err 404 "Event not found", db)
  | some e =>
    if e.status != EventStatus.PUBLISHED then
      (.err 403 "Forbidden: Event is not published", db)
    else if e.etype != EventType.MERCH then
      (.err 400 "This event is not a merchandise event", db)
    else if e.allowTeams then
      (.err 400 "This event requires team registration. Please create or join a team first.", db)
    else if merchDeadlinePassed e now then
      (.err 400 "Registration deadline has passed", db)
    else
      match findRegByPair db eid uid with
      | some ex =>
        if ex.status == RegStatus.REJECTED || ex.status == RegStatus.CANCELLED then
          registerForMerchCore eid uid pt oreq (deleteReg db ex.rid) e
        else (.err 400 "You have already registered for this event", db)
      | none => registerForMerchCore eid uid pt oreq db e

/-- Embedding of uploadPaymentProof (participantController.js); file is
the stored-file reference, absent when no image was uploaded. A MERCH
registration always carries an order, so the missing-order branch (a JS
TypeError in the source) surfaces as the generic 500. -/
def uploadPaymentProof (rid uid : Nat) (file : Option String) (db : DB) :
    Resp Registration × DB :=
  match file with
  | none => (.err 400 "Payment proof image is required", db)
  | some path =>
    match findReg db rid with
    | none => (.err 404 "Registration not found", db)
    | some r =>
      if r.participantId != uid then
        (.err 403 "Forbidden: You can only upload payment proof for your own orders", db)
      else if r.rtype != EventType.MERCH then
        (.err 400 "Payment proof is only required for merchandise orders", db)
      else
        match r.order with
        | none => (.err 500 "Server error", db)
        | some o =>
          if o.paymentStatus == PayStatus.APPROVED then
            (.err 400 "Payment has already been approved", db)
          else
            let o1 := { o with paymentProof := some path, paymentStatus := PayStatus.PENDING }
            let r1 := { r with order := some o1 }
            (.ok 200 r1, updateReg db rid r1)

/-- Final segment of approvePayment: approve the order, confirm the
registration and populate the qr payload (the saved document always
passes validation since APPROVED is in the schema enum). -/
def approveFinish (rid : Nat) (r : Registration) (o : MerchOrder) (db : DB) :
    Resp Registration × DB :=
  let r1 := { r with
    order := some { o with paymentStatus := PayStatus.APPROVED },
    status := RegStatus.CONFIRMED,
    qrPayload := some { registrationId := some r.ticketId, eventId := r.eventId,
                        participantId := r.participantId } }
  (.ok 200 r1, updateReg db rid r1)

/-- Embedding of approvePayment (organizerController.js): stock is
decremented only for true merchandise skus, before the registration is
confirmed; an insufficient stock fails the whole operation with no state
change. -/
def approvePayment (rid actor : Nat) (db : DB) : Resp Registration × DB :=
  match findReg db rid with
  | none => (.err 404 "Registration not found", db)
  | some r =>
    match findEvent db r.eventId with
    | none => (.err 404 "Event not found", db)
    | some e =>
      if e.organizerId != actor then
        (.err 403 "Forbidden: You are not the organizer of this event", db)
      else
        match r.order with
        | none => (.err 400 "This registration does not have a payment order", db)
        | some o =>
          if o.paymentStatus == PayStatus.APPROVED then
            (.err 400 "Payment has already been approved", db)
          else
            match o.paymentProof with
            | none => (.err 400 "No payment proof has been uploaded yet", db)
            | some _ =>
              if o.sku != "REGISTRATION_FEE" then
                match findItem e o.sku with
                | none => (.err 404 "Item not found in event", db)
                | some it =>
                  match it.findVariant o.size o.color with
                  | none => (.err 404 "Variant not found", db)
                  | some v =>
                    if decide (v.stock < o.quantity) then
                      (.err 400 "Insufficient stock available", db)
                    else
                      approveFinish rid r o
                        (updateEvent db r.eventId
                          (adjustStock e o.sku o.size o.color (fun s => s - o.quantity)))
              else approveFinish rid r o db

/-- Embedding of cancelRegistration (participantController.js). The
restore-stock branch repeats, verbatim, the guard that already returned
an error above it, so it can never run; it is embedded as written. -/
def cancelRegistration (rid uid : Nat) (db : DB) : Resp Registration × DB :=
  match findReg db rid with
  | none => (.err 404 "Registration not found", db)
  | some r =>
    if r.participantId != uid then
      (.err 403 "Forbidden: You can only cancel your own registrations", db)
    else if r.status == RegStatus.CANCELLED then
      (.err 400 "Registration is already cancelled", db)
    else if r.rtype == EventType.MERCH &&
            r.order.map MerchOrder.paymentStatus == some PayStatus.APPROVED then
      (.err 400 "Cannot cancel approved merchandise orders. Please contact the organizer.", db)
    else
      let r1 := { r with status := RegStatus.CANCELLED }
      let db1 := updateReg db rid r1
      let db2 :=
        if r.rtype == EventType.MERCH &&
           r.order.map MerchOrder.paymentStatus == some PayStatus.APPROVED then
          match r.order with
          | some o =>
            match findEvent db1 r.eventId with
            | some e =>
              match findItem e o.sku with
              | some it =>
                match it.findVariant o.size o.color with
                | some _ =>
                  updateEvent db1 r.eventId
                    (adjustStock e o.sku o.size o.color (fun s => s + o.quantity))
                | none => db1
              | none => db1
            | none => db1
          | none => db1
        else db1
      (.ok 200 r1, db2)

/-- The participant block of the checkIn response. -/
structure CheckInInfo where
  message : String
  ticketId : Nat
  attended : Bool
  attendedAt : Option Int
deriving DecidableEq, Repr

/-- Embedding of checkIn (organizerController.js). qrIn is none when the
body has no qrPayload, some none when the JSON does not parse, and
some (some p) for a parsed payload. The response message is computed from
the document after the idempotent update, so it reads Already checked in
on the repeat call (and, as written in the source, on the first call
too). -/
def checkIn (now : Int) (eid actor : Nat) (qrIn : Option (Option QrPayload)) (db : DB) :
    Resp CheckInInfo × DB :=
  match qrIn with
  | none => (.err 400 "QR payload is required", db)
  | some parsed =>
    match findEvent db eid with
    | none => (.err 404 "Event not found", db)
    | some e =>
      if e.organizerId != actor then (.err 403 "Not your event", db)
      else
        match parsed with
        | none => (.err 400 "Invalid QR payload format", db)
        | some payload =>
          match findRegByTicket db eid payload.registrationId with
          | none => (.err 404 "Registration not found or invalid ticket", db)
          | some r =>
            if r.status == RegStatus.CANCELLED then
              (.err 400 "Registration has been cancelled", db)
            else
              let rAfter := if r.attended then r
                            else { r with attended := true, attendedAt := some now }
              let db1 := if r.attended then db else updateReg db r.rid rAfter
              let msg := if rAfter.attended then "Already checked in" else "Check-in successful"
              (.ok 200 { message := msg, ticketId := rAfter.ticketId,
                         attended := rAfter.attended, attendedAt := rAfter.attendedAt }, db1)

/-- The statuses counted as an active team membership by the controllers. -/
def activeTeamStatuses : List TeamStatus :=
  [TeamStatus.FORMING, TeamStatus.COMPLETE, TeamStatus.REGISTERED]

def Team.hasMemberUser (t : Team) (uid : Nat) : Bool :=
  t.members.any (fun m => m.userId == uid)

/-- The already-in-a-team query of createTeam and joinTeam: leader of or
member of any team for the event with active status, optionally excluding
one team id. -/
def userActiveTeamExists (db : DB) (eid uid : Nat) (excl : Option Nat) : Bool :=
  db.teams.any (fun p =>
    p.2.eventId == eid &&
    (match excl with | some x => p.1 != x | none => true) &&
    (p.2.teamLeader == uid || p.2.hasMemberUser uid) &&
    activeTeamStatuses.contains p.2.status)

/-- The individual-registration query of createTeam and joinTeam: a
PENDING or CONFIRMED registration of the user for the event. -/
def hasActiveIndividualReg (db : DB) (eid uid : Nat) : Bool :=
  db.regs.any (fun r => r.eventId == eid && r.participantId == uid &&
    (r.status == RegStatus.PENDING || r.status == RegStatus.CONFIRMED))

/-- Count of ACCEPTED entries in the members list. -/
def accCount (t : Team) : Nat :=
  t.members.countP (fun m => m.status == MemberStatus.ACCEPTED)

/-- One registration document created by the registerTeam helper: status
CONFIRMED, the team id attached, and a qr payload that carries a ticketId
field but no registrationId field. -/
def mkTeamReg (eid tid : Nat) (ety : EventType) (uid rid ticket : Nat) : Registration :=
  { rid := rid, eventId := eid, participantId := uid, teamId := some tid,
    rtype := ety, status := RegStatus.CONFIRMED, ticketId := ticket,
    qrPayload := some { registrationId := none, eventId := eid, participantId := uid },
    attended := false, attendedAt := none, order := none }

/-- Ordered insertMany over the accepted members: on a failed insert the
earlier documents remain and the error propagates (false). -/
def insertTeamRegs (eid tid : Nat) (ety : EventType) : List TeamMember → DB → Bool × DB
  | [], db => (true, db)
  | m :: rest, db =>
    let reg := mkTeamReg eid tid ety m.userId db.nextRid db.nextTicket
    match insertReg { db with nextRid := db.nextRid + 1, nextTicket := db.nextTicket + 1 } reg with
    | some db1 => insertTeamRegs eid tid ety rest db1
    | none => (false, db)

/-- Embedding of the registerTeam helper (teamController.js): create one
CONFIRMED registration per accepted member, then mark the team
REGISTERED. false means the helper threw (caught by its callers). -/
def registerTeamFn (now : Int) (tid : Nat) (t : Team) (db : DB) : Bool × DB :=
  match findEvent db t.eventId with
  | none => (false, db)
  | some e =>
    let accepted := t.members.filter (fun m => m.status == MemberStatus.ACCEPTED)
    match insertTeamRegs t.eventId tid e.etype accepted db with
    | (true, db1) =>
      (true, updateTeam db1 tid { t with status := TeamStatus.REGISTERED, registeredAt := some now })
    | (false, db1) => (false, db1)

/-- Embedding of createTeam (teamController.js). The invite code is drawn
from the fresh-supply counter, modelling the retry-until-unique loop of
the source; saving validates the schema bound teamSize at least 2, so the
size-one immediate-register branch of the source can never be reached. -/
def createTeam (now : Int) (eid leaderId : Nat) (nm : String) (teamSize : Int) (db : DB) :
    Resp Unit × DB :=
  match findEvent db eid with
  | none => (.err 404 "Event not found", db)
  | some e =>
    if !e.allowTeams then
      (.err 400 "This event does not support team registration", db)
    else if ((match e.minTeamSize with | some m => decide (teamSize < m) | none => false) ||
             (match e.maxTeamSize with | some m => decide (m < teamSize) | none => false)) then
      (.err 400 "Team size must be between the event minimum and maximum", db)
    else if userActiveTeamExists db eid leaderId none then
      (.err 400 "You are already part of a team for this event", db)
    else if hasActiveIndividualReg db eid leaderId then
      (.err 400 "You already have an individual registration for this event", db)
    else
      let t : Team :=
        { teamName := nm, eventId := eid, teamLeader := leaderId, teamSize := teamSize,
          members := [{ userId := leaderId, status := MemberStatus.ACCEPTED, joinedAt := some now }],
          inviteCode := db.nextCode,
          status := if teamSize == 1 then TeamStatus.COMPLETE else TeamStatus.FORMING,
          completedAt := none, registeredAt := none }
      if !t.schemaValid then (.err 500 "Failed to create team", db)
      else
        let tid := db.nextTeamId
        let db1 := { db with teams := db.teams ++ [(tid, t)],
                             nextTeamId := db.nextTeamId + 1, nextCode := db.nextCode + 1 }
        if teamSize == 1 then
          match registerTeamFn now tid t db1 with
          | (true, db2) => (.ok 201 (), db2)
          | (false, db2) => (.err 500 "Failed to create team", db2)
        else (.ok 201 (), db1)

/-- Tail of joinTeam after the member-duplication checks: team-full check,
other-team and individual-registration checks, member append, and the
COMPLETE transition with the batch-registration trigger. -/
def joinTeamCore (now : Int) (tid : Nat) (t : Team) (uid : Nat) (db : DB) : Resp Unit × DB :=
  if decide (t.teamSize ≤ (accCount t : Int)) then
    (.err 400 "This team is already full", db)
  else if userActiveTeamExists db t.eventId uid (some tid) then
    (.err 400 "You are already part of another team for this event", db)
  else if hasActiveIndividualReg db t.eventId uid then
    (.err 400 "You already have an individual registration for this event", db)
  else
    let t1 := { t with members := t.members ++
                  [{ userId := uid, status := MemberStatus.ACCEPTED, joinedAt := some now }] }
    if ((accCount t1 : Int) == t1.teamSize) then
      let t2 := { t1 with status := TeamStatus.COMPLETE, completedAt := some now }
      if !t2.schemaValid then (.err 500 "Failed to join team", db)
      else
        let db1 := updateTeam db tid t2
        match registerTeamFn now tid t2 db1 with
        | (true, db2) => (.ok 200 (), db2)
        | (false, db2) => (.err 500 "Failed to join team", db2)
    else
      if !t1.schemaValid then (.err 500 "Failed to join team", db)
      else (.ok 200 (), updateTeam db tid t1)

/-- Embedding of joinTeam (teamController.js). -/
def joinTeam (now : Int) (code uid : Nat) (db : DB) : Resp Unit × DB :=
  match findTeamByCode db code with
  | none => (.err 404 "Invalid invite code", db)
  | some (tid, t) =>
    if t.status != TeamStatus.FORMING then
      (.err 400 "This team is no longer accepting members", db)
    else
      match t.members.find? (fun m => m.userId == uid) with
      | some m =>
        if m.status == MemberStatus.ACCEPTED then
          (.err 400 "You are already part of this team", db)
        else if m.status == MemberStatus.PENDING then
          (.err 400 "You already have a pending invite for this team", db)
        else joinTeamCore now tid t uid db
      | none => joinTeamCore now tid t uid db

/-- Embedding of leaveTeam (teamController.js): no membership check, the
filter removes nothing for a non-member, and a COMPLETE team reverts to
FORMING with completedAt cleared. -/
def leaveTeam (tid uid : Nat) (db : DB) : Resp Unit × DB :=
  match findTeam db tid with
  | none => (.err 404 "Team not found", db)
  | some t =>
    if t.status == TeamStatus.REGISTERED then
      (.err 400 "Cannot leave team after registration is complete", db)
    else if t.teamLeader == uid then
      (.err 400 "Team leader cannot leave. Please cancel the team instead.", db)
    else
      let t1 := { t with members := t.members.filter (fun m => m.userId != uid) }
      let t2 := if t.status == TeamStatus.COMPLETE
                then { t1 with status := TeamStatus.FORMING, completedAt := none } else t1
      if !t2.schemaValid then (.err 500 "Failed to leave team", db)
      else (.ok 200 (), updateTeam db tid t2)

/-- Embedding of cancelTeam (teamController.js). -/
def cancelTeam (tid uid : Nat) (db : DB) : Resp Unit × DB :=
  match findTeam db tid with
  | none => (.err 404 "Team not found", db)
  | some t =>
    if t.teamLeader != uid then
      (.err 403 "Only team leader can cancel the team", db)
    else if t.status == TeamStatus.REGISTERED then
      (.err 400 "Cannot cancel team after registration. Please cancel individual registrations instead.", db)
    else
      let t1 := { t with status := TeamStatus.CANCELLED }
      if !t1.schemaValid then (.err 500 "Failed to cancel team", db)
      else (.ok 200 (), updateTeam db tid t1)

/-- One request against the subsystem, with the inputs of the embedded
controller functions. -/
inductive Op where
  | opRegisterEvent (eid uid : Nat) (pt : Option String)
  | opRegisterMerch (eid uid : Nat) (pt : Option String) (oreq : Option OrderReq)
  | opUploadProof (rid uid : Nat) (file : Option String)
  | opApprove (rid actor : Nat)
  | opCancelReg (rid uid : Nat)
  | opCheckIn (eid actor : Nat) (qrIn : Option (Option QrPayload))
  | opCreateTeam (eid leaderId : Nat) (nm : String) (teamSize : Int)
  | opJoinTeam (code uid : Nat)
  | opLeaveTeam (tid uid : Nat)
  | opCancelTeam (tid uid : Nat)
deriving DecidableEq, Repr

/-- The state transition of one request (the response is discarded). -/
def applyOp (now : Int) (op : Op) (db : DB) : DB :=
  match op with
  | .opRegisterEvent eid uid pt => (registerForEvent now eid uid pt db).2
  | .opRegisterMerch eid uid pt oreq => (registerForMerchEvent now eid uid pt oreq db).2
  | .opUploadProof rid uid file => (uploadPaymentProof rid uid file db).2
  | .opApprove rid actor => (approvePayment rid actor db).2
  | .opCancelReg rid uid => (cancelRegistration rid uid db).2
  | .opCheckIn eid actor q => (checkIn now eid actor q db).2
  | .opCreateTeam eid l nm ts => (createTeam now eid l nm ts db).2
  | .opJoinTeam code uid => (joinTeam now code uid db).2
  | .opLeaveTeam tid uid => (leaveTeam tid uid db).2
  | .opCancelTeam tid uid => (cancelTeam tid uid db).2

/-- A sequence of requests, each with its wall-clock instant. -/
def run (trace : List (Int × Op)) (db : DB) : DB :=
  trace.foldl (fun d p => applyOp p.1 p.2 d) db

/-- The state of a fresh deployment holding some published events and no
registrations or teams. -/
def initDB (events0 : List (Nat × Event)) : DB :=
  { events := events0, regs := [], teams := [], nextRid := 0, nextTicket := 0,
    nextTeamId := 0, nextCode := 0 }

/-- One mongo index declaration: the indexed fields and the unique flag. -/
structure IndexSpec where
  fields : List String
  unique : Bool
deriving DecidableEq, Repr

/-- The indexes declared on the registration schema: the field-level
unique index on ticketId, and the three plain secondary indexes declared
with schema.index. -/
def registrationIndexes : List IndexSpec :=
  [ { fields := ["ticketId"], unique := true },
    { fields := ["participantId"], unique := false },
    { fields := ["eventId"], unique := false },
    { fields := ["createdAt"], unique := false } ]

/-- The indexes declared on the team schema: the field-level unique index
on inviteCode and the plain secondary indexes. -/
def teamIndexes : List IndexSpec :=
  [ { fields := ["inviteCode"], unique := true },
    { fields := ["eventId"], unique := false },
    { fields := ["teamLeader"], unique := false },
    { fields := ["members.userId"], unique := false } ]

/-- Whether some declared index enforces uniqueness on exactly the given
field list. -/
def hasUniqueIndexOn (ixs : List IndexSpec) (fs : List String) : Bool :=
  ixs.any (fun ix => ix.unique && ix.fields == fs)

/-! Claim statements and concrete fixtures. -/

/-- Tickets already stored are strictly below the fresh-supply counter. -/
def RegTicketsFresh (db : DB) : Prop :=
  ∀ r ∈ db.regs, r.ticketId < db.nextTicket

/-- Every merchandise variant of every stored event has non-negative stock. -/
def stocksNonNeg (db : DB) : Prop :=
  ∀ p ∈ db.events, ∀ it ∈ p.2.items, ∀ v ∈ it.variants, 0 ≤ v.stock

/-- Claim C1 as stated: after any request sequence from a fresh
deployment, an event with maxParticipants N has at most N registrations
with status other than CANCELLED. -/
def capacityBoundClaim : Prop :=
  ∀ (events0 : List (Nat × Event)) (trace : List (Int × Op)) (eid : Nat) (e : Event) (N : Int),
    findEvent (run trace (initDB events0)) eid = some e →
    e.maxParticipants = some N → 0 < N →
    (countNonCancelled (run trace (initDB events0)) eid : Int) ≤ N

/-- The requests that go through the capacity check of the two
registration endpoints (or never create a registration): everything but
joinTeam, whose batch registration has no capacity check, and
approvePayment, which can confirm a CANCELLED registration. -/
def capacityCheckedOp : Op → Bool
  | .opJoinTeam _ _ => false
  | .opApprove _ _ => false
  | _ => true

/-- Claim C2, round-trip half, as stated: whenever approvePayment
succeeded and changed a variant stock, cancelling that registration
restores the stock to its value before the approval. -/
def stockRoundTripClaim : Prop :=
  ∀ (db : DB) (rid actor uid eid : Nat) (sku size color : String) (s0 : Int),
    getStock db eid sku size color = some s0 →
    (approvePayment rid actor db).1.isOk = true →
    getStock (approvePayment rid actor db).2 eid sku size color ≠ some s0 →
    getStock (cancelRegistration rid uid (approvePayment rid actor db).2).2 eid sku size color = some s0

/-- Claim C2, safety half: stocks stay non-negative under any request
sequence from a fresh deployment whose events have non-negative stocks. -/
def stockSafetyClaim : Prop :=
  ∀ (events0 : List (Nat × Event)) (trace : List (Int × Op)),
    stocksNonNeg (initDB events0) → stocksNonNeg (run trace (initDB events0))

/-- Claim C5 as stated: uniqueness enforced on (eventId, participantId)
and ticketId for registrations, and on inviteCode for teams. -/
def uniqueIndexClaim : Prop :=
  (hasUniqueIndexOn registrationIndexes ["eventId", "participantId"] = true ∨
   hasUniqueIndexOn registrationIndexes ["participantId", "eventId"] = true) ∧
  hasUniqueIndexOn registrationIndexes ["ticketId"] = true ∧
  hasUniqueIndexOn teamIndexes ["inviteCode"] = true

/-- Claim C4, invariant half: a stored team is REGISTERED exactly when
its ACCEPTED member count equals teamSize. -/
def teamRegisteredIffClaim : Prop :=
  ∀ (events0 : List (Nat × Event)) (trace : List (Int × Op)) (tid : Nat) (t : Team),
    (tid, t) ∈ (run trace (initDB events0)).teams →
    (t.status = TeamStatus.REGISTERED ↔ (accCount t : Int) = t.teamSize)

/-- The per-team statement of the reachability invariant behind C4. -/
def TeamInv (t : Team) : Prop :=
  2 ≤ t.teamSize ∧
  (t.status = TeamStatus.FORMING → (accCount t : Int) < t.teamSize) ∧
  (t.status = TeamStatus.COMPLETE → False) ∧
  (t.status = TeamStatus.REGISTERED → (accCount t : Int) = t.teamSize) ∧
  (t.status = TeamStatus.CANCELLED → (accCount t : Int) < t.teamSize)

/-- The reachability invariant behind C4: ticket freshness, and every
stored team references a stored event and satisfies TeamInv. -/
def TeamsWF (db : DB) : Prop :=
  RegTicketsFresh db ∧
  ∀ p ∈ db.teams, (findEvent db p.2.eventId).isSome = true ∧ TeamInv p.2

/-- A published team event with one seat: the C1 counterexample event. -/
def c1TeamEvent : Event :=
  { organizerId := 9, title := "T", etype := EventType.NORMAL, status := EventStatus.PUBLISHED,
    registrationDeadline := none, eventStartDate := none, maxParticipants := some 1,
    fee := 0, merchandiseFee := none, eligibility := [], allowTeams := true,
    minTeamSize := some 2, maxTeamSize := some 4, items := [], formLocked := false }

/-- Create a team of two and fill it: the batch registration creates two
CONFIRMED registrations with no capacity check. -/
def c1TeamTrace : List (Int × Op) :=
  [(0, Op.opCreateTeam 1 10 "T" 2), (1, Op.opJoinTeam 0 11)]

/-- A published one-seat paid merchandise event for the second C1 leak. -/
def c1ApproveEvent : Event :=
  { organizerId := 9, title := "R", etype := EventType.MERCH, status := EventStatus.PUBLISHED,
    registrationDeadline := none, eventStartDate := none, maxParticipants := some 1,
    fee := 100, merchandiseFee := none, eligibility := [], allowTeams := false,
    minTeamSize := none, maxTeamSize := none, items := [], formLocked := false }

/-- Register, upload proof, cancel, let a second user take the seat, then
approve the cancelled registration: approvePayment confirms it past the
cap. -/
def c1ApproveTrace : List (Int × Op) :=
  [(0, Op.opRegisterMerch 1 7 none none), (1, Op.opUploadProof 0 7 (some "f")),
   (2, Op.opCancelReg 0 7), (3, Op.opRegisterMerch 1 8 none none), (4, Op.opApprove 0 9)]

/-- A published merch event with one item in stock 5 for C2. -/
def c2Event : Event :=
  { organizerId := 9, title := "M", etype := EventType.MERCH, status := EventStatus.PUBLISHED,
    registrationDeadline := none, eventStartDate := none, maxParticipants := none,
    fee := 100, merchandiseFee := some 50, eligibility := [], allowTeams := false,
    minTeamSize := none, maxTeamSize := none,
    items := [{ sku := "TSHIRT", name := "Shirt",
                variants := [{ size := "M", color := "Black", stock := 5 }],
                purchaseLimitPerUser := none }],
    formLocked := false }

/-- A pending merch order of quantity 2 with proof uploaded, for C2. -/
def c2Reg : Registration :=
  { rid := 0, eventId := 1, participantId := 7, teamId := none, rtype := EventType.MERCH,
    status := RegStatus.PENDING, ticketId := 0, qrPayload := none, attended := false,
    attendedAt := none,
    order := some { sku := "TSHIRT", name := "Shirt", size := "M", color := "Black",
                    quantity := 2, price := 50, amountPaid := 200,
                    paymentStatus := PayStatus.PENDING, paymentProof := some "f",
                    rejectionReason := none } }

def c2DB : DB :=
  { events := [(1, c2Event)], regs := [c2Reg], teams := [], nextRid := 1, nextTicket := 1,
    nextTeamId := 0, nextCode := 0 }

/-- Stored document ids are pairwise distinct (the mongo primary key). -/
def RegIdsDistinct (db : DB) : Prop :=
  db.regs.Pairwise (fun a b => a.rid ≠ b.rid)

/-- A published team event admitting sizes 2..4, used for the C4 scenario. -/
def c4Event : Event :=
  { organizerId := 9, title := "T", etype := EventType.NORMAL, status := EventStatus.PUBLISHED,
    registrationDeadline := none, eventStartDate := none, maxParticipants := none,
    fee := 0, merchandiseFee := none, eligibility := [], allowTeams := true,
    minTeamSize := some 2, maxTeamSize := some 4, items := [], formLocked := false }

/-- Leader 10 creates a team of three; 11 and 12 join. -/
def c4Trace : List (Int × Op) :=
  [(0, Op.opCreateTeam 1 10 "T" 3), (1, Op.opJoinTeam 0 11), (2, Op.opJoinTeam 0 12)]

/-- A published event owned by organizer 9 with no constraints. -/
def c6Event : Event :=
  { organizerId := 9, title := "N", etype := EventType.NORMAL, status := EventStatus.PUBLISHED,
    registrationDeadline := none, eventStartDate := none, maxParticipants := none,
    fee := 0, merchandiseFee := none, eligibility := [], allowTeams := false,
    minTeamSize := none, maxTeamSize := none, items := [], formLocked := false }

/-- A confirmed, not yet attended registration with ticket 5. -/
def c6Reg : Registration :=
  { rid := 0, eventId := 1, participantId := 7, teamId := none, rtype := EventType.NORMAL,
    status := RegStatus.CONFIRMED, ticketId := 5, qrPayload := none, attended := false,
    attendedAt := none, order := none }

def c6DB : DB :=
  { events := [(1, c6Event)], regs := [c6Reg], teams := [], nextRid := 1, nextTicket := 6,
    nextTeamId := 0, nextCode := 0 }

def c6Payload : QrPayload := { registrationId := some 5, eventId := 1, participantId := 7 }

/-- A free published NORMAL event for the C7 witness. -/
def c7FreeDB : DB := initDB [(1, c6Event)]

/-- The registration the free C7 request creates. -/
def c7Reg : Registration :=
  { rid := 0, eventId := 1, participantId := 8, teamId := none, rtype := EventType.NORMAL,
    status := RegStatus.CONFIRMED, ticketId := 0,
    qrPayload := some { registrationId := some 0, eventId := 1, participantId := 8 },
    attended := false, attendedAt := none, order := none }

/-- The C8 zero-total merchandise event: fee 0, no merchandiseFee field,
one TSHIRT variant with stock 5. -/
def c8Event : Event :=
  { organizerId := 9, title := "M", etype := EventType.MERCH, status := EventStatus.PUBLISHED,
    registrationDeadline := none, eventStartDate := none, maxParticipants := none,
    fee := 0, merchandiseFee := none, eligibility := [], allowTeams := false,
    minTeamSize := none, maxTeamSize := none,
    items := [{ sku := "TSHIRT", name := "Shirt",
                variants := [{ size := "M", color := "Black", stock := 5 }],
                purchaseLimitPerUser := some 2 }],
    formLocked := false }

def c8DB : DB := initDB [(1, c8Event)]

/-- The same event with a positive registration fee, for contrast. -/
def c8PaidEvent : Event := { c8Event with fee := 100 }

def c8PaidDB : DB := initDB [(1, c8PaidEvent)]

/-- A valid order for one TSHIRT M Black. -/
def c8Oreq : Option OrderReq :=
  some { sku := some "TSHIRT", variant := some ("M", "Black"), quantity := some 1 }

/-- A pending-payment registration for the C9 witness. -/
def c9Reg : Registration :=
  { rid := 0, eventId := 1, participantId := 7, teamId := none, rtype := EventType.NORMAL,
    status := RegStatus.PENDING, ticketId := 5, qrPayload := none, attended := false,
    attendedAt := none, order := none }

def c9DB : DB :=
  { events := [(1, c6Event)], regs := [c9Reg], teams := [], nextRid := 1, nextTicket := 6,
    nextTeamId := 0, nextCode := 0 }

def c9Payload : QrPayload := { registrationId := some 5, eventId := 1, participantId := 7 }

/-- A COMPLETE team of size 2 whose members are 10 (leader) and 11, for
the C10 witness; 12 is not a member. -/
def c10Team : Team :=
  { teamName := "T", eventId := 1, teamLeader := 10, teamSize := 2,
    members := [{ userId := 10, status := MemberStatus.ACCEPTED, joinedAt := some 0 },
                { userId := 11, status := MemberStatus.ACCEPTED, joinedAt := some 1 }],
    inviteCode := 0, status := TeamStatus.COMPLETE, completedAt := some 1,
    registeredAt := none }

def c10DB : DB :=
  { events := [(1, c4Event)], regs := [], teams := [(0, c10Team)], nextRid := 0,
    nextTicket := 0, nextTeamId := 1, nextCode := 1 }

/-- The registration the paid C8 request creates. -/
def c8PaidReg : Registration :=
  { rid := 0, eventId := 1, participantId := 7, teamId := none, rtype := EventType.MERCH,
    status := RegStatus.PENDING, ticketId := 0, qrPayload := none, attended := false,
    attendedAt := none,
    order := some { sku := "TSHIRT", name := "Shirt", size := "M", color := "Black",
                    quantity := 1, price := 0, amountPaid := 100,
                    paymentStatus := PayStatus.PENDING, paymentProof := none,
                    rejectionReason := none } }

/-- Well-formedness of the registration store: document ids are below the
fresh-supply counter and pairwise distinct (the mongo primary key). -/
def RegsWF (db : DB) : Prop :=
  (∀ r ∈ db.regs, r.rid < db.nextRid) ∧ (db.regs.map Registration.rid).Nodup

/-- The induction invariant behind the amended C1: well-formed ids, the
event still stored with the same cap, and the non-CANCELLED count below
the cap. -/
def CapInv (eid : Nat) (N : Int) (db : DB) : Prop :=
  RegsWF db ∧
  (∃ e, findEvent db eid = some e ∧ e.maxParticipants = some N) ∧
  (countNonCancelled db eid : Int) ≤ N

/-! Theorems. -/

/-- Claim C5, counterexample: the registration schema declares no unique
index on the (eventId, participantId) pair; only ticketId and inviteCode
are unique, so the claimed conjunction is false. -/
theorem c5_unique_indexes_counterexample : ¬ uniqueIndexClaim := by
  intro h
  rcases h with ⟨hpair, _, _⟩
  rcases hpair with h1 | h1 <;> simp [hasUniqueIndexOn, registrationIndexes] at h1

/-- Claim C5, amended: uniqueness is enforced on ticketId and on
inviteCode, there is no unique index on the (eventId, participantId)
pair in either field order, and the duplicate check is application-level:
when a PENDING or CONFIRMED registration for the pair is already visible,
registerForEvent refuses with the duplicate error and changes nothing. -/
theorem c5_unique_indexes_amended :
    hasUniqueIndexOn registrationIndexes ["ticketId"] = true ∧
    hasUniqueIndexOn teamIndexes ["inviteCode"] = true ∧
    hasUniqueIndexOn registrationIndexes ["eventId", "participantId"] = false ∧
    hasUniqueIndexOn registrationIndexes ["participantId", "eventId"] = false ∧
    (∀ (now : Int) (eid uid : Nat) (pt : Option String) (db : DB) (e : Event) (ex : Registration),
      findEvent db eid = some e →
      e.status = EventStatus.PUBLISHED → e.etype = EventType.NORMAL → e.allowTeams = false →
      regDeadlinePassed e now = false → startPassedNoDeadline e now = false →
      findRegByPair db eid uid = some ex →
      ex.status = RegStatus.PENDING ∨ ex.status = RegStatus.CONFIRMED →
      registerForEvent now eid uid pt db =
        (.err 400 "You have already registered for this event", db)) := by
  refine ⟨rfl, rfl, rfl, rfl, ?_⟩
  intro now eid uid pt db e ex he hst hty hteams hd1 hd2 hex hexst
  have hb : (ex.status == RegStatus.REJECTED || ex.status == RegStatus.CANCELLED) = false := by
    rcases hexst with h | h <;> simp [h]
  simp [registerForEvent, he, hst, hty, hteams, hd1, hd2, hex, hb]

/-- Claim C1, counterexample: the bound fails on a one-seat team event
where createTeam plus joinTeam batch-register two CONFIRMED
registrations with no capacity check, and again on a one-seat merch
event where approvePayment confirms a CANCELLED registration after the
seat has been retaken (registration, proof upload, cancel,
re-registration by another user, then approval of the cancelled row). -/
theorem c1_capacity_counterexample :
    ¬ capacityBoundClaim ∧
    countNonCancelled (run c1TeamTrace (initDB [(1, c1TeamEvent)])) 1 = 2 ∧
    c1TeamEvent.maxParticipants = some 1 ∧
    countNonCancelled (run c1ApproveTrace (initDB [(1, c1ApproveEvent)])) 1 = 2 ∧
    c1ApproveEvent.maxParticipants = some 1 := by
  refine ⟨?_, by decide, rfl, by decide, rfl⟩
  intro h
  have h2 := h [(1, c1TeamEvent)] c1TeamTrace 1 c1TeamEvent 1 (by decide) rfl (by decide)
  rw [show countNonCancelled (run c1TeamTrace (initDB [(1, c1TeamEvent)])) 1 = 2 from by decide] at h2
  exact absurd h2 (by decide)

/-- Claim C2, counterexample: after approvePayment decrements the TSHIRT
stock from 5 to 3, cancelRegistration on that registration returns the
approved-order error and the stock stays 3, not 5; the claimed round
trip is false. -/
theorem c2_stock_counterexample :
    ¬ (stockSafetyClaim ∧ stockRoundTripClaim) ∧
    getStock c2DB 1 "TSHIRT" "M" "Black" = some 5 ∧
    (approvePayment 0 9 c2DB).1.isOk = true ∧
    getStock (approvePayment 0 9 c2DB).2 1 "TSHIRT" "M" "Black" = some 3 ∧
    (cancelRegistration 0 7 (approvePayment 0 9 c2DB).2).1 =
      .err 400 "Cannot cancel approved merchandise orders. Please contact the organizer." ∧
    getStock (cancelRegistration 0 7 (approvePayment 0 9 c2DB).2).2 1 "TSHIRT" "M" "Black" = some 3 := by
  refine ⟨?_, by decide, by decide, by decide, by decide, by decide⟩
  rintro ⟨_, hrt⟩
  have h2 := hrt c2DB 0 9 7 1 "TSHIRT" "M" "Black" 5 (by decide) (by decide) (by decide)
  rw [show getStock (cancelRegistration 0 7 (approvePayment 0 9 c2DB).2).2 1 "TSHIRT" "M" "Black"
        = some 3 from by decide] at h2
  exact absurd h2 (by decide)

/-- Claim C8: the zero-total branch is broken in the code. With fee 0 and
no merchandiseFee the computed total is 0, the controller builds the
registration with order paymentStatus PAID, the order schema enum
(PENDING, APPROVED, REJECTED) rejects it at save, and the request ends
in the 500 handler with no registration created and stock untouched --
where the claim (and the code comments) promise an immediately CONFIRMED
registration. The positive-total path works: with fee 100 the same
request creates a PENDING registration with a PENDING order and no stock
change. -/
theorem c8_zero_total_merch_bug :
    c8Event.fee + merchFeeOf c8Event * 1 = 0 ∧
    registerForMerchEvent 0 1 7 none c8Oreq c8DB = (.err 500 "Server error", c8DB) ∧
    (run [] c8DB).regs = [] ∧
    getStock c8DB 1 "TSHIRT" "M" "Black" = some 5 ∧
    c8PaidEvent.fee + merchFeeOf c8PaidEvent * 1 = 100 ∧
    (registerForMerchEvent 0 1 7 none c8Oreq c8PaidDB).1 = .ok 201 c8PaidReg ∧
    c8PaidReg.status = RegStatus.PENDING ∧
    (c8PaidReg.order.map MerchOrder.paymentStatus) = some PayStatus.PENDING ∧
    getStock (registerForMerchEvent 0 1 7 none c8Oreq c8PaidDB).2 1 "TSHIRT" "M" "Black" = some 5 := by
  exact ⟨by decide, by decide, by decide, by decide, by decide, by decide, by decide,
         by decide, by decide⟩

/-! Helper lemmas about the state primitives. -/

theorem updateReg_events (db : DB) (rid : Nat) (r1 : Registration) :
    (updateReg db rid r1).events = db.events := rfl

theorem updateReg_teams (db : DB) (rid : Nat) (r1 : Registration) :
    (updateReg db rid r1).teams = db.teams := rfl

theorem updateEvent_regs (db : DB) (k : Nat) (e : Event) :
    (updateEvent db k e).regs = db.regs := rfl

theorem updateEvent_teams (db : DB) (k : Nat) (e : Event) :
    (updateEvent db k e).teams = db.teams := rfl

theorem deleteReg_events (db : DB) (rid : Nat) : (deleteReg db rid).events = db.events := rfl

theorem deleteReg_teams (db : DB) (rid : Nat) : (deleteReg db rid).teams = db.teams := rfl

theorem updateTeam_events (db : DB) (tid : Nat) (t : Team) :
    (updateTeam db tid t).events = db.events := rfl

theorem updateTeam_regs (db : DB) (tid : Nat) (t : Team) :
    (updateTeam db tid t).regs = db.regs := rfl

theorem insertReg_eq_some {db : DB} {r : Registration} {db1 : DB}
    (h : insertReg db r = some db1) : db1 = { db with regs := db.regs ++ [r] } := by
  unfold insertReg at h
  split at h
  · exact (Option.some.injEq _ _ ▸ h).symm
  · cases h

theorem find?_keyed_update_self (l : List (Nat × Event)) (eid : Nat) (e' : Event)
    (h : (l.find? (fun p => p.1 == eid)).isSome = true) :
    (l.map (fun p => if p.1 == eid then (eid, e') else p)).find? (fun p => p.1 == eid)
      = some (eid, e') := by
  induction l with
  | nil => simp at h
  | cons a rest ih =>
    simp only [List.map_cons]
    by_cases ha : (a.1 == eid) = true
    · rw [if_pos ha]
      exact List.find?_cons_of_pos _ (by simp)
    · rw [if_neg ha]
      simp only [List.find?_cons, ha] at h ⊢
      exact ih (by simpa using h)

theorem find?_keyed_update_ne (l : List (Nat × Event)) (k eid : Nat) (e' : Event)
    (h : eid ≠ k) :
    (l.map (fun p => if p.1 == k then (k, e') else p)).find? (fun p => p.1 == eid)
      = l.find? (fun p => p.1 == eid) := by
  induction l with
  | nil => simp
  | cons a rest ih =>
    simp only [List.map_cons]
    by_cases hk : (a.1 == k) = true
    · have hke : (k == eid) = false := by simpa using fun hh => h hh.symm
      have hae : (a.1 == eid) = false := by
        have : a.1 = k := by simpa using hk
        simpa [this] using fun hh => h hh.symm
      rw [if_pos hk]
      simp only [List.find?_cons, hke, hae]
      exact ih
    · rw [if_neg hk]
      simp only [List.find?_cons]
      cases hae : (a.1 == eid)
      · simp only [hae]
        exact ih
      · simp only [hae]

theorem find?_keyed_update_none (l : List (Nat × Event)) (k : Nat) (e' : Event)
    (h : l.find? (fun p => p.1 == k) = none) :
    (l.map (fun p => if p.1 == k then (k, e') else p)) = l := by
  have hall := List.find?_eq_none.mp h
  have : ∀ p ∈ l, (if p.1 == k then (k, e') else p) = p := by
    intro p hp
    rw [if_neg (hall p hp)]
  calc (l.map (fun p => if p.1 == k then (k, e') else p)) = l.map id := List.map_congr_left this
    _ = l := List.map_id l

theorem findEvent_updateEvent_self {db : DB} {eid : Nat} {e : Event} (e' : Event)
    (he : findEvent db eid = some e) :
    findEvent (updateEvent db eid e') eid = some e' := by
  unfold findEvent updateEvent at *
  simp only []
  rw [find?_keyed_update_self]
  · rfl
  · cases hf : db.events.find? (fun p => p.1 == eid) <;> simp [hf] at he ⊢

theorem findEvent_updateEvent_ne {db : DB} {k eid : Nat} (e' : Event) (h : eid ≠ k) :
    findEvent (updateEvent db k e') eid = findEvent db eid := by
  unfold findEvent updateEvent
  simp only []
  rw [find?_keyed_update_ne _ _ _ _ h]

theorem findEvent_isSome_updateEvent (db : DB) (k : Nat) (e' : Event) (eid : Nat) :
    (findEvent (updateEvent db k e') eid).isSome = (findEvent db eid).isSome := by
  by_cases hek : eid = k
  · subst hek
    cases hf : findEvent db eid with
    | none =>
      have hnone : db.events.find? (fun p => p.1 == eid) = none := by
        have h2 := hf
        unfold findEvent at h2
        exact Option.map_eq_none'.mp h2
      have hupd : findEvent (updateEvent db eid e') eid = none := by
        unfold findEvent updateEvent
        simp only []
        rw [find?_keyed_update_none _ _ _ hnone, hnone]
        rfl
      rw [hupd]
    | some e0 =>
      rw [findEvent_updateEvent_self e' hf]
      rfl
  · rw [findEvent_updateEvent_ne e' hek]

theorem findEvent_map_maxP_updateEvent {db : DB} {k : Nat} {e0 e' : Event}
    (hk : findEvent db k = some e0) (hmp : e'.maxParticipants = e0.maxParticipants)
    (eid : Nat) :
    (findEvent (updateEvent db k e') eid).map Event.maxParticipants
      = (findEvent db eid).map Event.maxParticipants := by
  by_cases h : eid = k
  · subst h
    rw [findEvent_updateEvent_self e' hk, hk]
    simp [hmp]
  · rw [findEvent_updateEvent_ne e' h]

theorem find?_adjustVariants {vs : List Variant} {sz c : String} {f : Int → Int} {v0 : Variant}
    (h : vs.find? (fun v => v.size == sz && v.color == c) = some v0) :
    (adjustVariants vs sz c f).find? (fun v => v.size == sz && v.color == c)
      = some { v0 with stock := f v0.stock } := by
  induction vs with
  | nil => simp at h
  | cons v rest ih =>
    cases hv : (v.size == sz && v.color == c)
    · simp only [List.find?_cons, hv] at h
      simp only [adjustVariants, hv, Bool.false_eq_true, if_neg, List.find?_cons,
        ite_false]
      exact ih h
    · simp only [List.find?_cons, hv] at h
      injection h with h
      subst h
      simp only [adjustVariants, hv, if_true, ite_true, List.find?_cons]

theorem find?_adjustItems {its : List MerchItem} {sku sz c : String} {f : Int → Int}
    {it0 : MerchItem} (h : its.find? (fun i => i.sku == sku) = some it0) :
    (adjustItems its sku sz c f).find? (fun i => i.sku == sku)
      = some { it0 with variants := adjustVariants it0.variants sz c f } := by
  induction its with
  | nil => simp at h
  | cons i rest ih =>
    cases hi : (i.sku == sku)
    · simp only [List.find?_cons, hi] at h
      simp only [adjustItems, hi, Bool.false_eq_true, if_neg, List.find?_cons, ite_false]
      exact ih h
    · simp only [List.find?_cons, hi] at h
      injection h with h
      subst h
      simp only [adjustItems, hi, if_true, ite_true, List.find?_cons]

theorem getStock_updateEvent_adjust {db : DB} {eid : Nat} {e : Event} {sku sz c : String}
    {f : Int → Int} {it : MerchItem} {v : Variant}
    (he : findEvent db eid = some e) (hit : findItem e sku = some it)
    (hv : it.findVariant sz c = some v) :
    getStock (updateEvent db eid (adjustStock e sku sz c f)) eid sku sz c
      = some (f v.stock) := by
  unfold getStock
  rw [findEvent_updateEvent_self _ he]
  unfold adjustStock findItem at *
  simp only []
  rw [find?_adjustItems hit]
  unfold MerchItem.findVariant at *
  simp only []
  rw [find?_adjustVariants hv]
  rfl

theorem getStock_updateReg (db : DB) (rid : Nat) (r1 : Registration) (eid : Nat)
    (sku sz c : String) : getStock (updateReg db rid r1) eid sku sz c = getStock db eid sku sz c := rfl

theorem findEvent_updateReg (db : DB) (rid : Nat) (r1 : Registration) (eid : Nat) :
    findEvent (updateReg db rid r1) eid = findEvent db eid := rfl

theorem find?_q_updateReg1 {l : List Registration} {q : Registration → Bool}
    {r r1 : Registration}
    (hp : l.Pairwise (fun a b => a.rid ≠ b.rid))
    (hfind : l.find? q = some r) (hq1 : q r1 = true) :
    (updateReg1 l r.rid r1).find? q = some r1 := by
  induction l with
  | nil => simp at hfind
  | cons a rest ih =>
    rcases List.pairwise_cons.mp hp with ⟨ha, hrest⟩
    cases hqa : q a
    · simp only [List.find?_cons, hqa] at hfind
      have hmem : r ∈ rest := List.mem_of_find?_eq_some hfind
      have hne : (a.rid == r.rid) = false := by
        simpa using ha r hmem
      simp only [updateReg1, hne, Bool.false_eq_true, if_neg, ite_false, List.find?_cons, hqa]
      exact ih hrest hfind
    · simp only [List.find?_cons, hqa] at hfind
      injection hfind with hfind
      subst hfind
      simp only [updateReg1, beq_self_eq_true, if_true, ite_true, List.find?_cons, hq1]

theorem mem_updateReg1 {l : List Registration} {rid : Nat} {r1 : Registration}
    (h : ∃ x ∈ l, (x.rid == rid) = true) : r1 ∈ updateReg1 l rid r1 := by
  induction l with
  | nil => simp at h
  | cons a rest ih =>
    cases ha : (a.rid == rid)
    · simp only [updateReg1, ha, Bool.false_eq_true, if_neg, ite_false]
      rcases h with ⟨x, hx, hxr⟩
      rcases List.mem_cons.mp hx with hxa | hxrest
      · subst hxa
        rw [ha] at hxr
        cases hxr
      · exact List.mem_cons_of_mem _ (ih ⟨x, hxrest, hxr⟩)
    · simp only [updateReg1, ha, if_true, ite_true]
      exact List.mem_cons_self _ _

theorem countP_updateReg1_le {l : List Registration} {rid : Nat} {r1 : Registration}
    {q : Registration → Bool} (hq : q r1 = false) :
    (updateReg1 l rid r1).countP q ≤ l.countP q := by
  induction l with
  | nil => simp [updateReg1]
  | cons a rest ih =>
    cases ha : (a.rid == rid)
    · simp only [updateReg1, ha, Bool.false_eq_true, if_neg, ite_false]
      rw [List.countP_cons, List.countP_cons]
      omega
    · simp only [updateReg1, ha, if_true, ite_true]
      rw [List.countP_cons, List.countP_cons, hq]
      simp only [Bool.false_eq_true, if_false, ite_false]
      omega

theorem countP_updateReg1_first {l : List Registration} {rid : Nat} {r1 : Registration}
    {q : Registration → Bool}
    (h : ∀ r, l.find? (fun x => x.rid == rid) = some r → q r1 = q r) :
    (updateReg1 l rid r1).countP q = l.countP q := by
  induction l with
  | nil => rfl
  | cons a rest ih =>
    cases ha : (a.rid == rid)
    · simp only [updateReg1, ha, Bool.false_eq_true, if_neg, ite_false]
      simp only [List.countP_cons]
      have := ih (fun r hr => h r (by simp only [List.find?_cons, ha]; exact hr))
      omega
    · have hqa := h a (by simp only [List.find?_cons, ha])
      simp only [updateReg1, ha, if_true, ite_true]
      simp only [List.countP_cons, hqa]

theorem mem_updateReg1_orig {l : List Registration} {rid : Nat} {r1 : Registration}
    {x : Registration} (h : x ∈ updateReg1 l rid r1) : x ∈ l ∨ x = r1 := by
  induction l with
  | nil => simp [updateReg1] at h
  | cons a rest ih =>
    cases ha : (a.rid == rid)
    · rw [updateReg1, if_neg (by simp [ha])] at h
      rcases List.mem_cons.mp h with h | h
      · exact Or.inl (List.mem_cons.mpr (Or.inl h))
      · rcases ih h with h2 | h2
        · exact Or.inl (List.mem_cons.mpr (Or.inr h2))
        · exact Or.inr h2
    · rw [updateReg1, if_pos (by simp [ha] : (a.rid == rid) = true)] at h
      rcases List.mem_cons.mp h with h | h
      · exact Or.inr h
      · exact Or.inl (List.mem_cons.mpr (Or.inr h))

theorem mem_updateEvent {db : DB} {k : Nat} {e' : Event} {p : Nat × Event}
    (h : p ∈ (updateEvent db k e').events) : p ∈ db.events ∨ p = (k, e') := by
  unfold updateEvent at h
  simp only [] at h
  rcases List.mem_map.mp h with ⟨q, hq, hqe⟩
  by_cases hqk : (q.1 == k) = true
  · rw [if_pos hqk] at hqe
    exact Or.inr hqe.symm
  · rw [if_neg hqk] at hqe
    exact Or.inl (hqe ▸ hq)

theorem findEvent_mem {db : DB} {eid : Nat} {e : Event} (h : findEvent db eid = some e) :
    (eid, e) ∈ db.events := by
  unfold findEvent at h
  cases hf : db.events.find? (fun p => p.1 == eid) with
  | none => rw [hf] at h; cases h
  | some p =>
    rw [hf] at h
    have hp := List.find?_some hf
    have hmem := List.mem_of_find?_eq_some hf
    have h1 : p.1 = eid := by simpa using hp
    have h2 : p.2 = e := by simpa using h
    have : p = (eid, e) := Prod.ext h1 h2
    exact this ▸ hmem

theorem mem_adjustVariants_found {vs : List Variant} {sz c : String} {f : Int → Int}
    {v0 : Variant} (hfind : vs.find? (fun v => v.size == sz && v.color == c) = some v0)
    {w : Variant} (h : w ∈ adjustVariants vs sz c f) :
    w ∈ vs ∨ w = { v0 with stock := f v0.stock } := by
  induction vs with
  | nil => simp [adjustVariants] at h
  | cons v rest ih =>
    cases hv : (v.size == sz && v.color == c)
    · simp only [List.find?_cons, hv] at hfind
      rw [adjustVariants, if_neg (by simp [hv])] at h
      rcases List.mem_cons.mp h with h | h
      · exact Or.inl (List.mem_cons.mpr (Or.inl h))
      · rcases ih hfind h with h2 | h2
        · exact Or.inl (List.mem_cons.mpr (Or.inr h2))
        · exact Or.inr h2
    · simp only [List.find?_cons, hv] at hfind
      injection hfind with hfind
      subst hfind
      rw [adjustVariants, if_pos hv] at h
      rcases List.mem_cons.mp h with h | h
      · exact Or.inr h
      · exact Or.inl (List.mem_cons.mpr (Or.inr h))

theorem mem_adjustItems_found {its : List MerchItem} {sku sz c : String} {f : Int → Int}
    {it0 : MerchItem} (hfind : its.find? (fun i => i.sku == sku) = some it0)
    {j : MerchItem} (h : j ∈ adjustItems its sku sz c f) :
    j ∈ its ∨ j = { it0 with variants := adjustVariants it0.variants sz c f } := by
  induction its with
  | nil => simp [adjustItems] at h
  | cons i rest ih =>
    cases hi : (i.sku == sku)
    · simp only [List.find?_cons, hi] at hfind
      rw [adjustItems, if_neg (by simp [hi])] at h
      rcases List.mem_cons.mp h with h | h
      · exact Or.inl (List.mem_cons.mpr (Or.inl h))
      · rcases ih hfind h with h2 | h2
        · exact Or.inl (List.mem_cons.mpr (Or.inr h2))
        · exact Or.inr h2
    · simp only [List.find?_cons, hi] at hfind
      injection hfind with hfind
      subst hfind
      rw [adjustItems, if_pos hi] at h
      rcases List.mem_cons.mp h with h | h
      · exact Or.inr h
      · exact Or.inl (List.mem_cons.mpr (Or.inr h))

theorem events_mkMerchRegistration (eid uid : Nat) (db : DB) (sku nm sz c : String)
    (qty price total : Int) :
    ((mkMerchRegistration eid uid db sku nm sz c qty price total).2).events = db.events := by
  unfold mkMerchRegistration
  dsimp only []
  split
  · rfl
  case _ db1 hins => rw [insertReg_eq_some hins]

theorem teams_mkMerchRegistration (eid uid : Nat) (db : DB) (sku nm sz c : String)
    (qty price total : Int) :
    ((mkMerchRegistration eid uid db sku nm sz c qty price total).2).teams = db.teams := by
  unfold mkMerchRegistration
  dsimp only []
  split
  · rfl
  case _ db1 hins => rw [insertReg_eq_some hins]

theorem events_registerForMerchCore (eid uid : Nat) (pt : Option String) (oreq : Option OrderReq)
    (db : DB) (e : Event) :
    ((registerForMerchCore eid uid pt oreq db e).2).events = db.events := by
  unfold registerForMerchCore
  repeat' split
  all_goals first
    | rfl
    | apply events_mkMerchRegistration

theorem teams_registerForMerchCore (eid uid : Nat) (pt : Option String) (oreq : Option OrderReq)
    (db : DB) (e : Event) :
    ((registerForMerchCore eid uid pt oreq db e).2).teams = db.teams := by
  unfold registerForMerchCore
  repeat' split
  all_goals first
    | rfl
    | apply teams_mkMerchRegistration

theorem events_registerForMerchEvent (now : Int) (eid uid : Nat) (pt : Option String)
    (oreq : Option OrderReq) (db : DB) :
    ((registerForMerchEvent now eid uid pt oreq db).2).events = db.events := by
  unfold registerForMerchEvent
  repeat' split
  all_goals first
    | rfl
    | exact events_registerForMerchCore ..

theorem teams_registerForMerchEvent (now : Int) (eid uid : Nat) (pt : Option String)
    (oreq : Option OrderReq) (db : DB) :
    ((registerForMerchEvent now eid uid pt oreq db).2).teams = db.teams := by
  unfold registerForMerchEvent
  repeat' split
  all_goals first
    | rfl
    | exact teams_registerForMerchCore ..

theorem teams_registerForEventCore (eid uid : Nat) (pt : Option String) (db : DB) (e : Event) :
    ((registerForEventCore eid uid pt db e).2).teams = db.teams := by
  unfold registerForEventCore
  split
  · rfl
  split
  · rfl
  dsimp only []
  split
  · rfl
  case _ db1 hins =>
    dsimp only []
    split
    · rw [updateEvent_teams, insertReg_eq_some hins]
    · rw [insertReg_eq_some hins]

theorem teams_registerForEvent (now : Int) (eid uid : Nat) (pt : Option String) (db : DB) :
    ((registerForEvent now eid uid pt db).2).teams = db.teams := by
  unfold registerForEvent
  repeat' split
  all_goals first
    | rfl
    | exact teams_registerForEventCore ..

theorem events_uploadPaymentProof (rid uid : Nat) (file : Option String) (db : DB) :
    ((uploadPaymentProof rid uid file db).2).events = db.events := by
  unfold uploadPaymentProof
  repeat' split
  all_goals rfl

theorem teams_uploadPaymentProof (rid uid : Nat) (file : Option String) (db : DB) :
    ((uploadPaymentProof rid uid file db).2).teams = db.teams := by
  unfold uploadPaymentProof
  repeat' split
  all_goals rfl

theorem teams_approvePayment (rid actor : Nat) (db : DB) :
    ((approvePayment rid actor db).2).teams = db.teams := by
  unfold approvePayment approveFinish
  repeat' split
  all_goals rfl

theorem events_cancelRegistration (rid uid : Nat) (db : DB) :
    ((cancelRegistration rid uid db).2).events = db.events := by
  unfold cancelRegistration
  repeat' split
  all_goals first
    | rfl
    | (rename_i h1 h2 _; exact absurd h2 h1)

theorem teams_cancelRegistration (rid uid : Nat) (db : DB) :
    ((cancelRegistration rid uid db).2).teams = db.teams := by
  unfold cancelRegistration
  repeat' split
  all_goals first
    | rfl
    | (rename_i h1 h2 _; exact absurd h2 h1)

theorem events_checkIn (now : Int) (eid actor : Nat) (qrIn : Option (Option QrPayload))
    (db : DB) : ((checkIn now eid actor qrIn db).2).events = db.events := by
  unfold checkIn
  repeat' split
  all_goals rfl

theorem teams_checkIn (now : Int) (eid actor : Nat) (qrIn : Option (Option QrPayload))
    (db : DB) : ((checkIn now eid actor qrIn db).2).teams = db.teams := by
  unfold checkIn
  repeat' split
  all_goals rfl

theorem events_insertTeamRegs (eid tid : Nat) (ety : EventType) :
    ∀ (ms : List TeamMember) (db : DB),
      ((insertTeamRegs eid tid ety ms db).2).events = db.events := by
  intro ms
  induction ms with
  | nil => intro db; rfl
  | cons m rest ih =>
    intro db
    unfold insertTeamRegs
    dsimp only []
    split
    case _ db1 hins =>
      rw [ih db1, insertReg_eq_some hins]
    case _ hins => rfl

theorem events_registerTeamFn (now : Int) (tid : Nat) (t : Team) (db : DB) :
    ((registerTeamFn now tid t db).2).events = db.events := by
  unfold registerTeamFn
  split
  · rfl
  case _ e heq =>
    dsimp only []
    split
    case _ db1 heq2 =>
      have h3 := congrArg (fun x => (Prod.snd x).events) heq2
      simp only [] at h3
      rw [updateTeam_events, ← h3]
      exact events_insertTeamRegs ..
    case _ db1 heq2 =>
      have h3 := congrArg (fun x => (Prod.snd x).events) heq2
      simp only [] at h3
      rw [← h3]
      exact events_insertTeamRegs ..

theorem events_createTeam (now : Int) (eid leaderId : Nat) (nm : String) (teamSize : Int)
    (db : DB) : ((createTeam now eid leaderId nm teamSize db).2).events = db.events := by
  unfold createTeam
  split
  · rfl
  case _ e heq =>
    split
    · rfl
    split
    · rfl
    split
    · rfl
    split
    · rfl
    dsimp only []
    split
    case _ h1 =>
      split
      · rfl
      split
      case _ db2 heq2 =>
        have h3 := congrArg (fun x => (Prod.snd x).events) heq2
        simp only [] at h3
        rw [← h3]
        exact events_registerTeamFn ..
      case _ db2 heq2 =>
        have h3 := congrArg (fun x => (Prod.snd x).events) heq2
        simp only [] at h3
        rw [← h3]
        exact events_registerTeamFn ..
    case _ h1 =>
      split
      · rfl
      · rfl

theorem events_joinTeamCore (now : Int) (tid : Nat) (t : Team) (uid : Nat) (db : DB) :
    ((joinTeamCore now tid t uid db).2).events = db.events := by
  unfold joinTeamCore
  split
  · rfl
  split
  · rfl
  split
  · rfl
  dsimp only []
  split
  case _ h1 =>
    split
    · rfl
    split
    case _ db2 heq2 =>
      have h3 := congrArg (fun x => (Prod.snd x).events) heq2
      simp only [] at h3
      rw [← h3]
      exact events_registerTeamFn ..
    case _ db2 heq2 =>
      have h3 := congrArg (fun x => (Prod.snd x).events) heq2
      simp only [] at h3
      rw [← h3]
      exact events_registerTeamFn ..
  case _ h1 =>
    split
    · rfl
    · rfl

theorem events_joinTeam (now : Int) (code uid : Nat) (db : DB) :
    ((joinTeam now code uid db).2).events = db.events := by
  unfold joinTeam
  repeat' split
  all_goals first
    | rfl
    | exact events_joinTeamCore ..

theorem events_leaveTeam (tid uid : Nat) (db : DB) :
    ((leaveTeam tid uid db).2).events = db.events := by
  unfold leaveTeam
  split
  · rfl
  split
  · rfl
  split
  · rfl
  dsimp only []
  split <;> (split <;> rfl)

theorem events_cancelTeam (tid uid : Nat) (db : DB) :
    ((cancelTeam tid uid db).2).events = db.events := by
  unfold cancelTeam
  split
  · rfl
  split
  · rfl
  split
  · rfl
  dsimp only []
  split <;> rfl

theorem maxP_registerForEventCore (eid uid : Nat) (pt : Option String) (db : DB) (e : Event)
    (he : findEvent db eid = some e) (eid' : Nat) :
    (findEvent ((registerForEventCore eid uid pt db e).2) eid').map Event.maxParticipants
      = (findEvent db eid').map Event.maxParticipants := by
  unfold registerForEventCore
  split
  · rfl
  split
  · rfl
  dsimp only []
  split
  · rfl
  case _ db1 hins =>
    dsimp only []
    split
    case _ hlock =>
      have hdb1 : db1 = _ := insertReg_eq_some hins
      have he1 : findEvent db1 eid = some e := by
        rw [hdb1]
        exact he
      have h2 : (findEvent (updateEvent db1 eid { e with formLocked := true }) eid').map
            Event.maxParticipants = (findEvent db1 eid').map Event.maxParticipants :=
        findEvent_map_maxP_updateEvent he1
          (show ({ e with formLocked := true } : Event).maxParticipants = e.maxParticipants
            from rfl) eid'
      rw [h2, hdb1]
      rfl
    case _ hlock =>
      have hdb1 : db1 = _ := insertReg_eq_some hins
      rw [hdb1]
      rfl

theorem maxP_registerForEvent (now : Int) (eid uid : Nat) (pt : Option String) (db : DB)
    (eid' : Nat) :
    (findEvent ((registerForEvent now eid uid pt db).2) eid').map Event.maxParticipants
      = (findEvent db eid').map Event.maxParticipants := by
  unfold registerForEvent
  split
  · rfl
  case _ e heq =>
    split
    · rfl
    split
    · rfl
    split
    · rfl
    split
    · rfl
    split
    · rfl
    split
    case _ ex hex =>
      split
      · exact maxP_registerForEventCore eid uid pt (deleteReg db ex.rid) e heq eid'
      · rfl
    case _ hex => exact maxP_registerForEventCore eid uid pt db e heq eid'

theorem maxP_approvePayment (rid actor : Nat) (db : DB) (eid' : Nat) :
    (findEvent ((approvePayment rid actor db).2) eid').map Event.maxParticipants
      = (findEvent db eid').map Event.maxParticipants := by
  unfold approvePayment approveFinish
  repeat' split
  all_goals first
    | rfl
    | (rw [findEvent_updateReg]
       exact findEvent_map_maxP_updateEvent (by assumption) (by rfl) eid')

theorem stocksNonNeg_congr {db db' : DB} (h : db'.events = db.events)
    (hs : stocksNonNeg db) : stocksNonNeg db' := by
  intro p hp
  rw [h] at hp
  exact hs p hp

theorem stocksNonNeg_updateEvent_items {db : DB} {k : Nat} {e0 e' : Event}
    (hs : stocksNonNeg db) (he : findEvent db k = some e0) (hitems : e'.items = e0.items) :
    stocksNonNeg (updateEvent db k e') := by
  intro p hp it hit v hv
  rcases mem_updateEvent hp with hp | hp
  · exact hs p hp it hit v hv
  · subst hp
    rw [hitems] at hit
    exact hs (k, e0) (findEvent_mem he) it hit v hv

theorem stocksNonNeg_updateEvent_adjust_sub {db : DB} {k : Nat} {e : Event}
    {sku sz c : String} {q : Int} {it : MerchItem} {v : Variant}
    (hs : stocksNonNeg db) (he : findEvent db k = some e)
    (hit : findItem e sku = some it) (hv : it.findVariant sz c = some v)
    (hq : ¬ (v.stock < q)) :
    stocksNonNeg (updateEvent db k (adjustStock e sku sz c (fun s => s - q))) := by
  intro p hp it' hit' v' hv'
  have hemem : (k, e) ∈ db.events := findEvent_mem he
  rcases mem_updateEvent hp with hp | hp
  · exact hs p hp it' hit' v' hv'
  · subst hp
    rcases mem_adjustItems_found hit hit' with hmem | heq
    · exact hs (k, e) hemem it' hmem v' hv'
    · subst heq
      rcases mem_adjustVariants_found hv hv' with hmem2 | heq2
      · exact hs (k, e) hemem it (List.mem_of_find?_eq_some hit) v' hmem2
      · subst heq2
        have h0 : 0 ≤ v.stock :=
          hs (k, e) hemem it (List.mem_of_find?_eq_some hit) v (List.mem_of_find?_eq_some hv)
        simp only []
        omega

theorem count_updateEvent (db : DB) (k : Nat) (e' : Event) (eid : Nat) :
    countNonCancelled (updateEvent db k e') eid = countNonCancelled db eid := rfl

theorem count_deleteReg_le (db : DB) (rid : Nat) (eid : Nat) :
    countNonCancelled (deleteReg db rid) eid ≤ countNonCancelled db eid :=
  List.Sublist.countP_le _ (List.eraseP_sublist _)

theorem findEvent_deleteReg (db : DB) (rid : Nat) (eid : Nat) :
    findEvent (deleteReg db rid) eid = findEvent db eid := rfl

theorem capacityFull_false_lt {N : Int} {cnt : Nat}
    (h : capacityFull (some N) cnt = false) (hN : 0 < N) : (cnt : Int) < N := by
  unfold capacityFull at h
  rcases Bool.and_eq_false_iff.mp h with h | h
  · have : N = 0 := by simpa using h
    omega
  · have : ¬ (N ≤ (cnt : Int)) := by simpa using h
    omega

theorem regStatus_new_ne_cancelled (b : Bool) :
    ((if b = true then RegStatus.PENDING else RegStatus.CONFIRMED) != RegStatus.CANCELLED) = true := by
  cases b <;> rfl

theorem count_insert_new (eid' : Nat) {db : DB} {db1 : DB} {r : Registration}
    (hins : insertReg db r = some db1) :
    countNonCancelled db1 eid' =
      countNonCancelled db eid' +
        (if (r.eventId == eid' && r.status != RegStatus.CANCELLED) = true then 1 else 0) := by
  rw [insertReg_eq_some hins]
  unfold countNonCancelled
  simp only [List.countP_append, List.countP_cons]
  simp

theorem count_counters (db : DB) (a b c d : Nat) (eid : Nat) :
    countNonCancelled { db with nextRid := a, nextTicket := b, nextTeamId := c, nextCode := d }
      eid = countNonCancelled db eid := rfl

theorem count_registerForEventCore (eid uid : Nat) (pt : Option String) (db : DB) (e : Event)
    (eid' : Nat) (N : Int)
    (hmp : eid = eid' → e.maxParticipants = some N) (hN : 0 < N)
    (hcnt : (countNonCancelled db eid' : Int) ≤ N) :
    (countNonCancelled ((registerForEventCore eid uid pt db e).2) eid' : Int) ≤ N := by
  unfold registerForEventCore
  split
  · exact hcnt
  case _ hcap =>
    split
    · exact hcnt
    dsimp only []
    split
    · exact hcnt
    case _ db1 hins =>
      dsimp only []
      have hc0 := count_insert_new eid' hins
      have hc1 : countNonCancelled db1 eid' = countNonCancelled db eid' + _ := hc0
      have hfin : (countNonCancelled db1 eid' : Int) ≤ N := by
        by_cases heid : eid = eid'
        · subst heid
          have hcapf : capacityFull e.maxParticipants (countNonCancelled db eid) = false :=
            Bool.not_eq_true _ |>.mp hcap
          rw [hmp rfl] at hcapf
          have hlt := capacityFull_false_lt hcapf hN
          rw [hc1]
          split <;> push_cast <;> omega
        · have : ((eid : Nat) == eid') = false := by simpa using heid
          rw [hc1]
          simp only [this, Bool.false_and, Bool.false_eq_true, if_false, ite_false]
          simpa using hcnt
      split
      · rw [count_updateEvent]
        exact hfin
      · exact hfin

theorem count_registerForEvent (now : Int) (eid uid : Nat) (pt : Option String) (db : DB)
    (eid' : Nat) (N : Int) (e' : Event)
    (hfind : findEvent db eid' = some e') (hmp : e'.maxParticipants = some N) (hN : 0 < N)
    (hcnt : (countNonCancelled db eid' : Int) ≤ N) :
    (countNonCancelled ((registerForEvent now eid uid pt db).2) eid' : Int) ≤ N := by
  unfold registerForEvent
  split
  · exact hcnt
  case _ e heq =>
    split
    · exact hcnt
    split
    · exact hcnt
    split
    · exact hcnt
    split
    · exact hcnt
    split
    · exact hcnt
    have hmp2 : eid = eid' → e.maxParticipants = some N := by
      intro h
      subst h
      rw [heq] at hfind
      cases hfind
      exact hmp
    split
    case _ ex hex =>
      split
      · refine count_registerForEventCore eid uid pt (deleteReg db ex.rid) e eid' N hmp2 hN ?_
        calc ((countNonCancelled (deleteReg db ex.rid) eid' : Nat) : Int)
            ≤ (countNonCancelled db eid' : Int) := by
              exact_mod_cast count_deleteReg_le db ex.rid eid'
          _ ≤ N := hcnt
      · exact hcnt
    case _ hex => exact count_registerForEventCore eid uid pt db e eid' N hmp2 hN hcnt

theorem count_mkMerchRegistration (eid uid : Nat) (db : DB) (sku nm sz c : String)
    (qty price total : Int) (eid' : Nat) (N : Int)
    (hlt : eid = eid' → (countNonCancelled db eid' : Int) < N)
    (hcnt : (countNonCancelled db eid' : Int) ≤ N) :
    (countNonCancelled ((mkMerchRegistration eid uid db sku nm sz c qty price total).2) eid' : Int)
      ≤ N := by
  unfold mkMerchRegistration
  dsimp only []
  split
  · exact hcnt
  case _ db1 hins =>
    have hc0 := count_insert_new eid' hins
    have hc1 : countNonCancelled db1 eid' = countNonCancelled db eid' + _ := hc0
    by_cases heid : eid = eid'
    · subst heid
      have := hlt rfl
      rw [hc1]
      split <;> push_cast <;> omega
    · have h2 : ((eid : Nat) == eid') = false := by simpa using heid
      rw [hc1]
      simp only [h2, Bool.false_and, Bool.false_eq_true, if_false, ite_false]
      simpa using hcnt

theorem count_registerForMerchCore (eid uid : Nat) (pt : Option String)
    (oreq : Option OrderReq) (db : DB) (e : Event) (eid' : Nat) (N : Int)
    (hmp : eid = eid' → e.maxParticipants = some N) (hN : 0 < N)
    (hcnt : (countNonCancelled db eid' : Int) ≤ N) :
    (countNonCancelled ((registerForMerchCore eid uid pt oreq db e).2) eid' : Int) ≤ N := by
  unfold registerForMerchCore
  split
  · exact hcnt
  case _ hcap =>
    have hlt : eid = eid' → (countNonCancelled db eid' : Int) < N := by
      intro h
      subst h
      have hcapf : capacityFull e.maxParticipants (countNonCancelled db eid) = false :=
        Bool.not_eq_true _ |>.mp hcap
      rw [hmp rfl] at hcapf
      exact capacityFull_false_lt hcapf hN
    repeat' split
    all_goals first
      | exact hcnt
      | exact count_mkMerchRegistration _ _ _ _ _ _ _ _ _ _ _ _ hlt hcnt

theorem count_registerForMerchEvent (now : Int) (eid uid : Nat) (pt : Option String)
    (oreq : Option OrderReq) (db : DB) (eid' : Nat) (N : Int) (e' : Event)
    (hfind : findEvent db eid' = some e') (hmp : e'.maxParticipants = some N) (hN : 0 < N)
    (hcnt : (countNonCancelled db eid' : Int) ≤ N) :
    (countNonCancelled ((registerForMerchEvent now eid uid pt oreq db).2) eid' : Int) ≤ N := by
  unfold registerForMerchEvent
  split
  · exact hcnt
  case _ e heq =>
    split
    · exact hcnt
    split
    · exact hcnt
    split
    · exact hcnt
    split
    · exact hcnt
    have hmp2 : eid = eid' → e.maxParticipants = some N := by
      intro h
      subst h
      rw [heq] at hfind
      cases hfind
      exact hmp
    split
    case _ ex hex =>
      split
      · refine count_registerForMerchCore eid uid pt oreq (deleteReg db ex.rid) e eid' N hmp2 hN ?_
        calc ((countNonCancelled (deleteReg db ex.rid) eid' : Nat) : Int)
            ≤ (countNonCancelled db eid' : Int) := by
              exact_mod_cast count_deleteReg_le db ex.rid eid'
          _ ≤ N := hcnt
      · exact hcnt
    case _ hex => exact count_registerForMerchCore eid uid pt oreq db e eid' N hmp2 hN hcnt

theorem rids_map_updateReg1 {l : List Registration} {rid : Nat} {r1 : Registration}
    (h : r1.rid = rid) : (updateReg1 l rid r1).map Registration.rid = l.map Registration.rid := by
  induction l with
  | nil => rfl
  | cons a rest ih =>
    cases ha : (a.rid == rid)
    · rw [updateReg1, if_neg (by simp [ha])]
      simp only [List.map_cons, ih]
    · have ha2 : a.rid = rid := by simpa using ha
      rw [updateReg1, if_pos ha]
      simp [h, ha2]

theorem regsWF_updateReg {db : DB} {rid : Nat} {r1 : Registration}
    (hwf : RegsWF db) (h1 : r1.rid = rid) (h2 : ∃ r ∈ db.regs, r.rid = rid) :
    RegsWF (updateReg db rid r1) := by
  obtain ⟨hbound, hnodup⟩ := hwf
  constructor
  · intro x hx
    rcases mem_updateReg1_orig hx with hx | hx
    · exact hbound x hx
    · subst hx
      obtain ⟨r, hr, hrid⟩ := h2
      rw [h1, ← hrid]
      exact hbound r hr
  · show ((updateReg1 db.regs rid r1).map Registration.rid).Nodup
    rw [rids_map_updateReg1 h1]
    exact hnodup

theorem regsWF_deleteReg {db : DB} (rid : Nat) (hwf : RegsWF db) :
    RegsWF (deleteReg db rid) := by
  obtain ⟨hbound, hnodup⟩ := hwf
  constructor
  · intro x hx
    exact hbound x ((List.eraseP_sublist db.regs).mem hx)
  · exact hnodup.sublist ((List.eraseP_sublist db.regs).map Registration.rid)

theorem regsWF_insert {db db1 : DB} {r : Registration}
    (hwf : RegsWF db) (hrid : r.rid = db.nextRid)
    (hins : insertReg { db with nextRid := db.nextRid + 1, nextTicket := db.nextTicket + 1 } r
      = some db1) : RegsWF db1 := by
  obtain ⟨hbound, hnodup⟩ := hwf
  have hdb1 := insertReg_eq_some hins
  constructor
  · intro x hx
    rw [hdb1] at hx ⊢
    simp only [List.mem_append, List.mem_singleton] at hx
    rcases hx with hx | hx
    · exact Nat.lt_succ_of_lt (hbound x hx)
    · subst hx
      rw [hrid]
      exact Nat.lt_succ_self _
  · rw [hdb1]
    show ((db.regs ++ [r]).map Registration.rid).Nodup
    rw [List.map_append]
    refine List.Nodup.append hnodup (by simp) ?_
    intro a ha hb
    simp only [List.map_cons, List.map_nil, List.mem_singleton] at hb
    rcases List.mem_map.mp ha with ⟨x, hx, hax⟩
    subst hb
    have := hbound x hx
    rw [hax, hrid] at this
    omega

theorem regsWF_registerForEventCore (eid uid : Nat) (pt : Option String) (db : DB) (e : Event)
    (hwf : RegsWF db) : RegsWF ((registerForEventCore eid uid pt db e).2) := by
  unfold registerForEventCore
  split
  · exact hwf
  split
  · exact hwf
  dsimp only []
  split
  · exact hwf
  case _ db1 hins =>
    dsimp only []
    have hwf1 := regsWF_insert hwf rfl hins
    split
    · constructor
      · exact hwf1.1
      · exact hwf1.2
    · exact hwf1

theorem regsWF_registerForEvent (now : Int) (eid uid : Nat) (pt : Option String) (db : DB)
    (hwf : RegsWF db) : RegsWF ((registerForEvent now eid uid pt db).2) := by
  unfold registerForEvent
  repeat' split
  all_goals first
    | exact hwf
    | exact regsWF_registerForEventCore _ _ _ _ _ (regsWF_deleteReg _ hwf)
    | exact regsWF_registerForEventCore _ _ _ _ _ hwf

theorem regsWF_mkMerchRegistration (eid uid : Nat) (db : DB) (sku nm sz c : String)
    (qty price total : Int) (hwf : RegsWF db) :
    RegsWF ((mkMerchRegistration eid uid db sku nm sz c qty price total).2) := by
  unfold mkMerchRegistration
  dsimp only []
  split
  · exact hwf
  case _ db1 hins => exact regsWF_insert hwf rfl hins

theorem regsWF_registerForMerchCore (eid uid : Nat) (pt : Option String)
    (oreq : Option OrderReq) (db : DB) (e : Event) (hwf : RegsWF db) :
    RegsWF ((registerForMerchCore eid uid pt oreq db e).2) := by
  unfold registerForMerchCore
  repeat' split
  all_goals first
    | exact hwf
    | exact regsWF_mkMerchRegistration _ _ _ _ _ _ _ _ _ _ hwf

theorem regsWF_registerForMerchEvent (now : Int) (eid uid : Nat) (pt : Option String)
    (oreq : Option OrderReq) (db : DB) (hwf : RegsWF db) :
    RegsWF ((registerForMerchEvent now eid uid pt oreq db).2) := by
  unfold registerForMerchEvent
  repeat' split
  all_goals first
    | exact hwf
    | exact regsWF_registerForMerchCore _ _ _ _ _ _ (regsWF_deleteReg _ hwf)
    | exact regsWF_registerForMerchCore _ _ _ _ _ _ hwf

theorem regsWF_updateReg_found {db : DB} {rid : Nat} {r r1 : Registration}
    (hwf : RegsWF db) (hr : findReg db rid = some r) (h1 : r1.rid = r.rid) :
    RegsWF (updateReg db rid r1) := by
  have hr' : List.find? (fun x => x.rid == rid) db.regs = some r := hr
  have hrr : r.rid = rid := by simpa using List.find?_some hr'
  exact regsWF_updateReg hwf (h1.trans hrr) ⟨r, List.mem_of_find?_eq_some hr', hrr⟩

theorem regsWF_updateReg_self {db : DB} {r r1 : Registration}
    (hwf : RegsWF db) (hm : r ∈ db.regs) (h1 : r1.rid = r.rid) :
    RegsWF (updateReg db r.rid r1) :=
  regsWF_updateReg hwf h1 ⟨r, hm, rfl⟩

theorem mem_of_findRegByTicket {db : DB} {eid : Nat} {t : Option Nat} {r : Registration}
    (h : findRegByTicket db eid t = some r) : r ∈ db.regs := by
  unfold findRegByTicket at h
  cases t with
  | none => cases h
  | some tk => exact List.mem_of_find?_eq_some h

theorem regsWF_uploadPaymentProof (rid uid : Nat) (file : Option String) (db : DB)
    (hwf : RegsWF db) : RegsWF ((uploadPaymentProof rid uid file db).2) := by
  unfold uploadPaymentProof
  repeat' split
  all_goals first
    | exact hwf
    | exact regsWF_updateReg_found hwf (by assumption) (by rfl)

theorem regsWF_cancelRegistration (rid uid : Nat) (db : DB)
    (hwf : RegsWF db) : RegsWF ((cancelRegistration rid uid db).2) := by
  unfold cancelRegistration
  repeat' split
  all_goals first
    | exact hwf
    | exact regsWF_updateReg_found hwf (by assumption) (by rfl)

theorem regsWF_checkIn (now : Int) (eid actor : Nat) (qrIn : Option (Option QrPayload))
    (db : DB) (hwf : RegsWF db) : RegsWF ((checkIn now eid actor qrIn db).2) := by
  unfold checkIn
  repeat' split
  all_goals first
    | exact hwf
    | exact regsWF_updateReg_self hwf (mem_of_findRegByTicket (by assumption)) (by rfl)

theorem eq_of_rid_nodup {l : List Registration} (hnd : (l.map Registration.rid).Nodup)
    {x y : Registration} (hx : x ∈ l) (hy : y ∈ l) (h : x.rid = y.rid) : x = y := by
  induction l with
  | nil => cases hx
  | cons a rest ih =>
    rw [List.map_cons, List.nodup_cons] at hnd
    rcases List.mem_cons.mp hx with hx | hx <;> rcases List.mem_cons.mp hy with hy | hy
    · exact hx.trans hy.symm
    · exfalso
      apply hnd.1
      have hmem : y.rid ∈ rest.map Registration.rid := List.mem_map.mpr ⟨y, hy, rfl⟩
      rw [← h, hx] at hmem
      exact hmem
    · exfalso
      apply hnd.1
      have hmem : x.rid ∈ rest.map Registration.rid := List.mem_map.mpr ⟨x, hx, rfl⟩
      rw [h, hy] at hmem
      exact hmem
    · exact ih hnd.2 hx hy

theorem count_updateReg_found {db : DB} {rid : Nat} {r r1 : Registration}
    (hr : findReg db rid = some r) (heid : r1.eventId = r.eventId)
    (hst : r1.status = r.status) (eid' : Nat) :
    countNonCancelled (updateReg db rid r1) eid' = countNonCancelled db eid' := by
  apply countP_updateReg1_first
  intro r' hr'
  have hr2 : List.find? (fun x => x.rid == rid) db.regs = some r := hr
  rw [hr2] at hr'
  cases hr'
  show (r1.eventId == eid' && r1.status != RegStatus.CANCELLED) = _
  rw [heid, hst]

theorem count_updateReg_same {db : DB} {r r1 : Registration} (hwf : RegsWF db)
    (hm : r ∈ db.regs) (heid : r1.eventId = r.eventId) (hst : r1.status = r.status)
    (eid' : Nat) :
    countNonCancelled (updateReg db r.rid r1) eid' = countNonCancelled db eid' := by
  apply countP_updateReg1_first
  intro r' hr'
  have hr'mem := List.mem_of_find?_eq_some hr'
  have hr'rid : r'.rid = r.rid := by simpa using List.find?_some hr'
  have heq : r' = r := eq_of_rid_nodup hwf.2 hr'mem hm hr'rid
  subst heq
  show (r1.eventId == eid' && r1.status != RegStatus.CANCELLED) = _
  rw [heid, hst]

theorem count_uploadPaymentProof (rid uid : Nat) (file : Option String) (db : DB)
    (eid' : Nat) :
    countNonCancelled ((uploadPaymentProof rid uid file db).2) eid'
      = countNonCancelled db eid' := by
  unfold uploadPaymentProof
  repeat' split
  all_goals first
    | rfl
    | exact count_updateReg_found (by assumption) (by rfl) (by rfl) eid'

theorem count_cancelRegistration_le (rid uid : Nat) (db : DB) (eid' : Nat) :
    countNonCancelled ((cancelRegistration rid uid db).2) eid'
      ≤ countNonCancelled db eid' := by
  unfold cancelRegistration
  repeat' split
  all_goals first
    | exact Nat.le_refl _
    | exact countP_updateReg1_le (by simp)

theorem count_checkIn (now : Int) (eid actor : Nat) (qrIn : Option (Option QrPayload))
    (db : DB) (eid' : Nat) (hwf : RegsWF db) :
    countNonCancelled ((checkIn now eid actor qrIn db).2) eid'
      = countNonCancelled db eid' := by
  unfold checkIn
  repeat' split
  all_goals first
    | rfl
    | exact count_updateReg_same hwf (mem_of_findRegByTicket (by assumption)) (by rfl)
        (by rfl) eid'

theorem regs_nextRid_createTeam (now : Int) (eid leaderId : Nat) (nm : String)
    (teamSize : Int) (db : DB) :
    ((createTeam now eid leaderId nm teamSize db).2).regs = db.regs ∧
    ((createTeam now eid leaderId nm teamSize db).2).nextRid = db.nextRid := by
  unfold createTeam
  split
  · exact ⟨rfl, rfl⟩
  case _ e heq =>
    split
    · exact ⟨rfl, rfl⟩
    split
    · exact ⟨rfl, rfl⟩
    split
    · exact ⟨rfl, rfl⟩
    split
    · exact ⟨rfl, rfl⟩
    dsimp only []
    split
    case _ h1 =>
      split
      · exact ⟨rfl, rfl⟩
      case _ hsv =>
        exfalso
        have ht1 : teamSize = 1 := by simpa using h1
        simp [Team.schemaValid, ht1] at hsv
    case _ h1 =>
      split
      · exact ⟨rfl, rfl⟩
      · exact ⟨rfl, rfl⟩

theorem regs_nextRid_leaveTeam (tid uid : Nat) (db : DB) :
    ((leaveTeam tid uid db).2).regs = db.regs ∧
    ((leaveTeam tid uid db).2).nextRid = db.nextRid := by
  unfold leaveTeam
  split
  · exact ⟨rfl, rfl⟩
  split
  · exact ⟨rfl, rfl⟩
  split
  · exact ⟨rfl, rfl⟩
  dsimp only []
  split <;> (split <;> exact ⟨rfl, rfl⟩)

theorem regs_nextRid_cancelTeam (tid uid : Nat) (db : DB) :
    ((cancelTeam tid uid db).2).regs = db.regs ∧
    ((cancelTeam tid uid db).2).nextRid = db.nextRid := by
  unfold cancelTeam
  split
  · exact ⟨rfl, rfl⟩
  split
  · exact ⟨rfl, rfl⟩
  split
  · exact ⟨rfl, rfl⟩
  dsimp only []
  split <;> exact ⟨rfl, rfl⟩

theorem findEvent_congr {db db' : DB} (h : db'.events = db.events) (eid : Nat) :
    findEvent db' eid = findEvent db eid := by
  unfold findEvent
  rw [h]

theorem countNC_congr {db db' : DB} (h : db'.regs = db.regs) (eid : Nat) :
    countNonCancelled db' eid = countNonCancelled db eid := by
  unfold countNonCancelled
  rw [h]

theorem regsWF_congr {db db' : DB} (h1 : db'.regs = db.regs) (h2 : db'.nextRid = db.nextRid)
    (hwf : RegsWF db) : RegsWF db' := by
  constructor
  · intro r hr
    rw [h1] at hr
    rw [h2]
    exact hwf.1 r hr
  · rw [h1]
    exact hwf.2

theorem maxP_applyOp_allowed (now : Int) (op : Op) (db : DB) (eid : Nat)
    (hop : capacityCheckedOp op = true) :
    (findEvent (applyOp now op db) eid).map Event.maxParticipants
      = (findEvent db eid).map Event.maxParticipants := by
  cases op with
  | opRegisterEvent eid1 uid pt => exact maxP_registerForEvent now eid1 uid pt db eid
  | opRegisterMerch eid1 uid pt oreq =>
    dsimp only [applyOp]
    rw [findEvent_congr (events_registerForMerchEvent now eid1 uid pt oreq db) eid]
  | opUploadProof rid uid file =>
    dsimp only [applyOp]
    rw [findEvent_congr (events_uploadPaymentProof rid uid file db) eid]
  | opApprove rid actor => simp [capacityCheckedOp] at hop
  | opCancelReg rid uid =>
    dsimp only [applyOp]
    rw [findEvent_congr (events_cancelRegistration rid uid db) eid]
  | opCheckIn eid1 actor q =>
    dsimp only [applyOp]
    rw [findEvent_congr (events_checkIn now eid1 actor q db) eid]
  | opCreateTeam eid1 l nm ts =>
    dsimp only [applyOp]
    rw [findEvent_congr (events_createTeam now eid1 l nm ts db) eid]
  | opJoinTeam code uid => simp [capacityCheckedOp] at hop
  | opLeaveTeam tid uid =>
    dsimp only [applyOp]
    rw [findEvent_congr (events_leaveTeam tid uid db) eid]
  | opCancelTeam tid uid =>
    dsimp only [applyOp]
    rw [findEvent_congr (events_cancelTeam tid uid db) eid]

theorem capInv_step (now : Int) (op : Op) (db : DB) (eid : Nat) (N : Int)
    (hop : capacityCheckedOp op = true) (hN : 0 < N) (hinv : CapInv eid N db) :
    CapInv eid N (applyOp now op db) := by
  obtain ⟨hwf, ⟨e, he, hmp⟩, hcnt⟩ := hinv
  have hmax := maxP_applyOp_allowed now op db eid hop
  rw [he] at hmax
  have hev : ∃ e2, findEvent (applyOp now op db) eid = some e2 ∧
      e2.maxParticipants = some N := by
    cases hf : findEvent (applyOp now op db) eid with
    | none => rw [hf] at hmax; cases hmax
    | some e2 =>
      rw [hf] at hmax
      refine ⟨e2, rfl, ?_⟩
      have : e2.maxParticipants = e.maxParticipants := by
        simpa using hmax
      rw [this, hmp]
  cases op with
  | opRegisterEvent eid1 uid pt =>
    exact ⟨regsWF_registerForEvent now eid1 uid pt db hwf, hev,
      count_registerForEvent now eid1 uid pt db eid N e he hmp hN hcnt⟩
  | opRegisterMerch eid1 uid pt oreq =>
    exact ⟨regsWF_registerForMerchEvent now eid1 uid pt oreq db hwf, hev,
      count_registerForMerchEvent now eid1 uid pt oreq db eid N e he hmp hN hcnt⟩
  | opUploadProof rid uid file =>
    refine ⟨regsWF_uploadPaymentProof rid uid file db hwf, hev, ?_⟩
    rw [show countNonCancelled (applyOp now (Op.opUploadProof rid uid file) db) eid
          = countNonCancelled db eid from count_uploadPaymentProof rid uid file db eid]
    exact hcnt
  | opApprove rid actor => simp [capacityCheckedOp] at hop
  | opCancelReg rid uid =>
    refine ⟨regsWF_cancelRegistration rid uid db hwf, hev, ?_⟩
    calc ((countNonCancelled (applyOp now (Op.opCancelReg rid uid) db) eid : Nat) : Int)
        ≤ (countNonCancelled db eid : Int) := by
          exact_mod_cast count_cancelRegistration_le rid uid db eid
      _ ≤ N := hcnt
  | opCheckIn eid1 actor q =>
    refine ⟨regsWF_checkIn now eid1 actor q db hwf, hev, ?_⟩
    rw [show countNonCancelled (applyOp now (Op.opCheckIn eid1 actor q) db) eid
          = countNonCancelled db eid from count_checkIn now eid1 actor q db eid hwf]
    exact hcnt
  | opCreateTeam eid1 l nm ts =>
    obtain ⟨h1, h2⟩ := regs_nextRid_createTeam now eid1 l nm ts db
    refine ⟨regsWF_congr h1 h2 hwf, hev, ?_⟩
    dsimp only [applyOp]
    rw [countNC_congr h1]
    exact hcnt
  | opJoinTeam code uid => simp [capacityCheckedOp] at hop
  | opLeaveTeam tid uid =>
    obtain ⟨h1, h2⟩ := regs_nextRid_leaveTeam tid uid db
    refine ⟨regsWF_congr h1 h2 hwf, hev, ?_⟩
    dsimp only [applyOp]
    rw [countNC_congr h1]
    exact hcnt
  | opCancelTeam tid uid =>
    obtain ⟨h1, h2⟩ := regs_nextRid_cancelTeam tid uid db
    refine ⟨regsWF_congr h1 h2 hwf, hev, ?_⟩
    dsimp only [applyOp]
    rw [countNC_congr h1]
    exact hcnt

theorem capInv_run (trace : List (Int × Op)) (db : DB) (eid : Nat) (N : Int)
    (hops : ∀ p ∈ trace, capacityCheckedOp p.2 = true) (hN : 0 < N)
    (hinv : CapInv eid N db) : CapInv eid N (run trace db) := by
  induction trace generalizing db with
  | nil => exact hinv
  | cons p rest ih =>
    exact ih _ (fun q hq => hops q (List.mem_cons_of_mem _ hq))
      (capInv_step p.1 p.2 db eid N (hops p (List.mem_cons_self _ _)) hN hinv)

theorem maxP_run_allowed (trace : List (Int × Op)) (db : DB) (eid : Nat)
    (hops : ∀ p ∈ trace, capacityCheckedOp p.2 = true) :
    (findEvent (run trace db) eid).map Event.maxParticipants
      = (findEvent db eid).map Event.maxParticipants := by
  induction trace generalizing db with
  | nil => rfl
  | cons p rest ih =>
    calc (findEvent (run rest (applyOp p.1 p.2 db)) eid).map Event.maxParticipants
        = (findEvent (applyOp p.1 p.2 db) eid).map Event.maxParticipants :=
          ih (applyOp p.1 p.2 db) (fun q hq => hops q (List.mem_cons_of_mem _ hq))
      _ = (findEvent db eid).map Event.maxParticipants :=
          maxP_applyOp_allowed p.1 p.2 db eid (hops p (List.mem_cons_self _ _))

/-- Claim C3: approvePayment requires a payment proof and a not yet
approved order; for a true merchandise sku, insufficient stock fails the
whole operation with no state change, and otherwise the variant stock is
decremented by the quantity while the registration turns APPROVED and
CONFIRMED with a populated qrPayload. -/
theorem c3_approvePayment_spec (rid actor : Nat) (db : DB) (r : Registration) (e : Event)
    (o : MerchOrder) (it : MerchItem) (v : Variant)
    (hr : findReg db rid = some r) (he : findEvent db r.eventId = some e)
    (horg : e.organizerId = actor) (ho : r.order = some o)
    (hsku : o.sku ≠ "REGISTRATION_FEE")
    (hit : findItem e o.sku = some it) (hv : it.findVariant o.size o.color = some v) :
    (o.paymentStatus = PayStatus.APPROVED →
      approvePayment rid actor db = (.err 400 "Payment has already been approved", db)) ∧
    (o.paymentStatus ≠ PayStatus.APPROVED → o.paymentProof = none →
      approvePayment rid actor db = (.err 400 "No payment proof has been uploaded yet", db)) ∧
    (o.paymentStatus ≠ PayStatus.APPROVED → o.paymentProof ≠ none → v.stock < o.quantity →
      approvePayment rid actor db = (.err 400 "Insufficient stock available", db)) ∧
    (o.paymentStatus ≠ PayStatus.APPROVED → o.paymentProof ≠ none → ¬ (v.stock < o.quantity) →
      ∃ db1, approvePayment rid actor db =
        (.ok 200 { r with order := some { o with paymentStatus := PayStatus.APPROVED },
                          status := RegStatus.CONFIRMED,
                          qrPayload := some { registrationId := some r.ticketId,
                                              eventId := r.eventId,
                                              participantId := r.participantId } }, db1) ∧
        getStock db1 r.eventId o.sku o.size o.color = some (v.stock - o.quantity)) := by
  have hskub : (o.sku != "REGISTRATION_FEE") = true := by simpa using hsku
  refine ⟨?_, ?_, ?_, ?_⟩
  · intro hap
    simp [approvePayment, hr, he, horg, ho, hap]
  · intro hap hpr
    have hapb : (o.paymentStatus == PayStatus.APPROVED) = false := by simpa using hap
    simp [approvePayment, hr, he, horg, ho, hapb, hpr]
  · intro hap hpr hstock
    have hapb : (o.paymentStatus == PayStatus.APPROVED) = false := by simpa using hap
    obtain ⟨pf, hpf⟩ := Option.ne_none_iff_exists'.mp hpr
    simp [approvePayment, hr, he, horg, ho, hapb, hpf, hskub, hit, hv, hstock]
  · intro hap hpr hstock
    have hapb : (o.paymentStatus == PayStatus.APPROVED) = false := by simpa using hap
    obtain ⟨pf, hpf⟩ := Option.ne_none_iff_exists'.mp hpr
    refine ⟨updateReg (updateEvent db r.eventId
        (adjustStock e o.sku o.size o.color (fun s => s - o.quantity))) rid
        { r with order := some { o with paymentStatus := PayStatus.APPROVED },
                 status := RegStatus.CONFIRMED,
                 qrPayload := some { registrationId := some r.ticketId, eventId := r.eventId,
                                     participantId := r.participantId } }, ?_, ?_⟩
    · simp [approvePayment, approveFinish, hr, he, horg, ho, hapb, hpf, hskub, hit, hv, hstock]
    · rw [getStock_updateReg]
      exact getStock_updateEvent_adjust he hit hv

/-- Witness for C3 at the concrete C2 fixture: pending TSHIRT order of
quantity 2 with proof, stock 5; the success branch decrements to 3. -/
theorem c3_approvePayment_spec_witness :
    ∃ db1, approvePayment 0 9 c2DB =
      (.ok 200 { c2Reg with
                   order := some { sku := "TSHIRT", name := "Shirt", size := "M", color := "Black",
                                   quantity := 2, price := 50, amountPaid := 200,
                                   paymentStatus := PayStatus.APPROVED, paymentProof := some "f",
                                   rejectionReason := none },
                   status := RegStatus.CONFIRMED,
                   qrPayload := some { registrationId := some 0, eventId := 1,
                                       participantId := 7 } }, db1) ∧
      getStock db1 1 "TSHIRT" "M" "Black" = some 3 := by
  have h := c3_approvePayment_spec 0 9 c2DB c2Reg c2Event
    { sku := "TSHIRT", name := "Shirt", size := "M", color := "Black",
      quantity := 2, price := 50, amountPaid := 200,
      paymentStatus := PayStatus.PENDING, paymentProof := some "f", rejectionReason := none }
    { sku := "TSHIRT", name := "Shirt",
      variants := [{ size := "M", color := "Black", stock := 5 }],
      purchaseLimitPerUser := none }
    { size := "M", color := "Black", stock := 5 }
    (by decide) (by decide) (by decide) (by decide) (by decide) (by decide) (by decide)
  exact h.2.2.2 (by decide) (by decide) (by decide)

/-- Claim C6: checkIn is idempotent. With a parsed payload whose ticket
resolves to a non-CANCELLED, not yet attended registration, the first
call marks it attended at now1; the second call with the same payload
succeeds with the message Already checked in, changes nothing, and
still reports attendedAt = now1. -/
theorem c6_checkIn_idempotent (now1 now2 : Int) (eid actor : Nat) (p : QrPayload) (db : DB)
    (e : Event) (r : Registration)
    (hds : RegIdsDistinct db)
    (he : findEvent db eid = some e) (horg : e.organizerId = actor)
    (hr : findRegByTicket db eid p.registrationId = some r)
    (hst : r.status ≠ RegStatus.CANCELLED) (hatt : r.attended = false) :
    ∃ db1, checkIn now1 eid actor (some (some p)) db =
        (.ok 200 { message := "Already checked in", ticketId := r.ticketId,
                   attended := true, attendedAt := some now1 }, db1) ∧
      checkIn now2 eid actor (some (some p)) db1 =
        (.ok 200 { message := "Already checked in", ticketId := r.ticketId,
                   attended := true, attendedAt := some now1 }, db1) := by
  obtain ⟨tk, htk⟩ : ∃ tk, p.registrationId = some tk := by
    cases hpt : p.registrationId with
    | none => rw [hpt] at hr; simp [findRegByTicket] at hr
    | some tk => exact ⟨tk, rfl⟩
  rw [htk] at hr
  have hr' : List.find? (fun x => x.ticketId == tk && x.eventId == eid) db.regs = some r := hr
  have hq := List.find?_some hr'
  have hstb : (r.status == RegStatus.CANCELLED) = false := by simpa using hst
  set rAfter : Registration := { r with attended := true, attendedAt := some now1 } with hra
  refine ⟨updateReg db r.rid rAfter, ?_, ?_⟩
  · simp [checkIn, he, horg, htk, hr, hstb, hatt]
  · have hfind2 : findRegByTicket (updateReg db r.rid rAfter) eid (some tk) = some rAfter := by
      unfold findRegByTicket updateReg at *
      simp only []
      exact find?_q_updateReg1 hds hr (by simpa using hq)
    have hstb2 : (rAfter.status == RegStatus.CANCELLED) = false := by simpa using hstb
    simp [checkIn, findEvent_updateReg, he, horg, htk, hfind2, hstb2, hra]

/-- Witness for C6 at the concrete fixture: organizer 9 checks ticket 5
in twice at instants 100 and 200. -/
theorem c6_checkIn_idempotent_witness :
    ∃ db1, checkIn 100 1 9 (some (some c6Payload)) c6DB =
        (.ok 200 { message := "Already checked in", ticketId := c6Reg.ticketId,
                   attended := true, attendedAt := some 100 }, db1) ∧
      checkIn 200 1 9 (some (some c6Payload)) db1 =
        (.ok 200 { message := "Already checked in", ticketId := c6Reg.ticketId,
                   attended := true, attendedAt := some 100 }, db1) :=
  c6_checkIn_idempotent 100 200 1 9 c6Payload c6DB c6Event c6Reg
    (by unfold RegIdsDistinct c6DB; simp)
    (by decide) (by decide) (by decide) (by decide) (by decide)

/-- Claim C9: for the organizer of an existing event, checkIn rejects
only an absent payload, an unparseable payload, an unknown ticket, or a
CANCELLED registration; every other status (PENDING and REJECTED
included) checks in successfully and marks the registration attended. -/
theorem c9_checkIn_errors (now : Int) (eid actor : Nat) (db : DB) (e : Event)
    (he : findEvent db eid = some e) (horg : e.organizerId = actor) :
    checkIn now eid actor none db = (.err 400 "QR payload is required", db) ∧
    checkIn now eid actor (some none) db = (.err 400 "Invalid QR payload format", db) ∧
    (∀ p : QrPayload, findRegByTicket db eid p.registrationId = none →
      checkIn now eid actor (some (some p)) db
        = (.err 404 "Registration not found or invalid ticket", db)) ∧
    (∀ (p : QrPayload) (r : Registration), findRegByTicket db eid p.registrationId = some r →
      r.status = RegStatus.CANCELLED →
      checkIn now eid actor (some (some p)) db
        = (.err 400 "Registration has been cancelled", db)) ∧
    (∀ (p : QrPayload) (r : Registration), findRegByTicket db eid p.registrationId = some r →
      r.status ≠ RegStatus.CANCELLED →
      ∃ info db1, checkIn now eid actor (some (some p)) db = (.ok 200 info, db1) ∧
        info.attended = true ∧
        db1.regs.any (fun x => x.rid == r.rid && x.attended) = true) := by
  refine ⟨by simp [checkIn], by simp [checkIn, he, horg], ?_, ?_, ?_⟩
  · intro p hnone
    simp [checkIn, he, horg, hnone]
  · intro p r hr hc
    simp [checkIn, he, horg, hr, hc]
  · intro p r hr hnc
    have hstb : (r.status == RegStatus.CANCELLED) = false := by simpa using hnc
    obtain ⟨tk, htk⟩ : ∃ tk, p.registrationId = some tk := by
      cases hpt : p.registrationId with
      | none => rw [hpt] at hr; simp [findRegByTicket] at hr
      | some tk => exact ⟨tk, rfl⟩
    rw [htk] at hr
    have hr' : List.find? (fun x => x.ticketId == tk && x.eventId == eid) db.regs = some r := hr
    have hmem := List.mem_of_find?_eq_some hr'
    cases hatt : r.attended
    · refine ⟨{ message := "Already checked in", ticketId := r.ticketId, attended := true,
                attendedAt := some now },
              updateReg db r.rid { r with attended := true, attendedAt := some now },
              ?_, rfl, ?_⟩
      · simp [checkIn, he, horg, htk, hr, hstb, hatt]
      · unfold updateReg
        simp only []
        refine List.any_eq_true.mpr ⟨{ r with attended := true, attendedAt := some now },
          mem_updateReg1 ⟨r, hmem, by simp⟩, by simp⟩
    · refine ⟨{ message := "Already checked in", ticketId := r.ticketId, attended := true,
                attendedAt := r.attendedAt }, db, ?_, rfl, ?_⟩
      · simp [checkIn, he, horg, htk, hr, hstb, hatt]
      · exact List.any_eq_true.mpr ⟨r, hmem, by simp [hatt]⟩

/-- Witness for C9: organizer 9, event 1; the missing-payload rejection,
and a successful check-in of the PENDING registration with ticket 5. -/
theorem c9_checkIn_errors_witness :
    checkIn 0 1 9 none c9DB = (.err 400 "QR payload is required", c9DB) ∧
    (∃ info db1, checkIn 0 1 9 (some (some c9Payload)) c9DB = (.ok 200 info, db1) ∧
      info.attended = true ∧
      db1.regs.any (fun x => x.rid == c9Reg.rid && x.attended) = true) := by
  have h := c9_checkIn_errors 0 1 9 c9DB c6Event (by decide) (by decide)
  exact ⟨h.1, h.2.2.2.2 c9Payload c9Reg (by decide) (by decide)⟩

/-- Claim C10: for a stored team that is not REGISTERED and a caller who
is not the leader, leaveTeam succeeds even when the caller is not in the
members list (removing nobody), and a COMPLETE team reverts to FORMING
with completedAt cleared, including when nobody was removed. -/
theorem c10_leaveTeam_nonmember (tid uid : Nat) (db : DB) (t : Team)
    (ht : findTeam db tid = some t) (hreg : t.status ≠ TeamStatus.REGISTERED)
    (hlead : t.teamLeader ≠ uid) (hsz : 2 ≤ t.teamSize) :
    ∃ t2, leaveTeam tid uid db = (.ok 200 (), updateTeam db tid t2) ∧
      t2.members = t.members.filter (fun m => m.userId != uid) ∧
      (t.status = TeamStatus.COMPLETE → t2.status = TeamStatus.FORMING ∧ t2.completedAt = none) ∧
      (t.status ≠ TeamStatus.COMPLETE → t2.status = t.status ∧ t2.completedAt = t.completedAt) ∧
      (t.hasMemberUser uid = false → t2.members = t.members) := by
  have hregb : (t.status == TeamStatus.REGISTERED) = false := by simpa using hreg
  have hleadb : (t.teamLeader == uid) = false := by simpa using hlead
  have hmemeq : t.hasMemberUser uid = false →
      t.members.filter (fun m => m.userId != uid) = t.members := by
    intro hm
    refine List.filter_eq_self.mpr ?_
    intro m hmm
    unfold Team.hasMemberUser at hm
    have hall := List.any_eq_false.mp hm m hmm
    simpa using hall
  cases hc : (t.status == TeamStatus.COMPLETE)
  · have hcs : t.status ≠ TeamStatus.COMPLETE := by simpa using hc
    refine ⟨{ t with members := t.members.filter (fun m => m.userId != uid) }, ?_,
      rfl, fun hcc => absurd hcc hcs, fun _ => ⟨rfl, rfl⟩, fun hm => hmemeq hm⟩
    simp [leaveTeam, Team.schemaValid, ht, hregb, hleadb, hc, hsz]
  · have hcs : t.status = TeamStatus.COMPLETE := by simpa using hc
    refine ⟨{ t with members := t.members.filter (fun m => m.userId != uid), status := TeamStatus.FORMING, completedAt := none }, ?_, rfl, fun _ => ⟨rfl, rfl⟩, fun hne => absurd hcs hne, fun hm => hmemeq hm⟩
    simp [leaveTeam, Team.schemaValid, ht, hregb, hleadb, hc, hsz]

/-- Witness for C10: non-member 12 leaves the COMPLETE two-member team;
the call succeeds, the member list is untouched, and the team reverts to
FORMING with completedAt cleared. -/
theorem c10_leaveTeam_nonmember_witness :
    ∃ t2, leaveTeam 0 12 c10DB = (.ok 200 (), updateTeam c10DB 0 t2) ∧
      t2.status = TeamStatus.FORMING ∧ t2.completedAt = none ∧
      t2.members = c10Team.members := by
  obtain ⟨t2, h1, _, h3, _, h5⟩ :=
    c10_leaveTeam_nonmember 0 12 c10DB c10Team (by decide) (by decide) (by decide) (by decide)
  exact ⟨t2, h1, (h3 rfl).1, (h3 rfl).2, h5 (by decide)⟩

theorem registerForEventCore_ok {eid uid : Nat} {pt : Option String} {db : DB} {e : Event}
    {r : Registration} (hok : (registerForEventCore eid uid pt db e).1 = .ok 201 r) :
    r.ticketId = db.nextTicket ∧
    (e.fee = 0 → r.status = RegStatus.CONFIRMED ∧ r.qrPayload ≠ none ∧ r.order = none) ∧
    (0 < e.fee → r.status = RegStatus.PENDING ∧ r.qrPayload = none ∧
      ∃ o, r.order = some o ∧ o.sku = "REGISTRATION_FEE" ∧ o.paymentStatus = PayStatus.PENDING) := by
  unfold registerForEventCore at hok
  split at hok
  · simp at hok
  split at hok
  · simp at hok
  dsimp only [] at hok
  split at hok
  · simp at hok
  have hr : r = _ := (Resp.ok.injEq _ _ _ _ |>.mp hok.symm).2
  subst hr
  refine ⟨rfl, ?_, ?_⟩
  · intro hfee
    simp [hfee]
  · intro hfee
    have : decide (0 < e.fee) = true := by simpa using hfee
    simp [this]

/-- Claim C7: a successful individual registration to a stored event is
CONFIRMED with a freshly generated ticket, a populated qrPayload and no
order when the fee is zero, and PENDING with a null qrPayload and an
embedded REGISTRATION_FEE order in state PENDING when the fee is
positive. -/
theorem c7_registerForEvent_outcomes (now : Int) (eid uid : Nat) (pt : Option String)
    (db : DB) (e : Event) (r : Registration)
    (he : findEvent db eid = some e)
    (hok : (registerForEvent now eid uid pt db).1 = .ok 201 r) :
    r.ticketId = db.nextTicket ∧
    (e.fee = 0 → r.status = RegStatus.CONFIRMED ∧ r.qrPayload ≠ none ∧ r.order = none) ∧
    (0 < e.fee → r.status = RegStatus.PENDING ∧ r.qrPayload = none ∧
      ∃ o, r.order = some o ∧ o.sku = "REGISTRATION_FEE" ∧ o.paymentStatus = PayStatus.PENDING) := by
  unfold registerForEvent at hok
  rw [he] at hok
  dsimp only [] at hok
  split at hok
  · simp at hok
  split at hok
  · simp at hok
  split at hok
  · simp at hok
  split at hok
  · simp at hok
  split at hok
  · simp at hok
  split at hok
  case _ ex hex =>
    split at hok
    · have h2 := registerForEventCore_ok hok
      exact h2
    · simp at hok
  case _ hex =>
    exact registerForEventCore_ok hok

/-- Witness for C7: user 8 registers for the free published event 1; the
request succeeds and the created registration is CONFIRMED with a
populated qrPayload and no order. -/
theorem c7_registerForEvent_outcomes_witness :
    c7Reg.status = RegStatus.CONFIRMED ∧ c7Reg.qrPayload ≠ none ∧ c7Reg.order = none := by
  have h := c7_registerForEvent_outcomes 0 1 8 none c7FreeDB c6Event c7Reg
    (by decide) (by decide)
  exact h.2.1 (by decide)

theorem ticketsFresh_updateReg {db : DB} {rid : Nat} {r1 : Registration}
    (h1 : r1.ticketId < db.nextTicket) (hf : RegTicketsFresh db) :
    RegTicketsFresh (updateReg db rid r1) := by
  intro x hx
  show x.ticketId < db.nextTicket
  rcases mem_updateReg1_orig hx with hx | hx
  · exact hf x hx
  · subst hx
    exact h1

theorem ticketsFresh_updateReg_found {db : DB} {rid : Nat} {r r1 : Registration}
    (hf : RegTicketsFresh db) (hr : findReg db rid = some r)
    (h1 : r1.ticketId = r.ticketId) : RegTicketsFresh (updateReg db rid r1) := by
  apply ticketsFresh_updateReg _ hf
  rw [h1]
  exact hf r (List.mem_of_find?_eq_some hr)

theorem ticketsFresh_updateReg_self {db : DB} {r r1 : Registration}
    (hf : RegTicketsFresh db) (hm : r ∈ db.regs) (h1 : r1.ticketId = r.ticketId) :
    RegTicketsFresh (updateReg db r.rid r1) := by
  apply ticketsFresh_updateReg _ hf
  rw [h1]
  exact hf r hm

theorem ticketsFresh_deleteReg {db : DB} (rid : Nat) (hf : RegTicketsFresh db) :
    RegTicketsFresh (deleteReg db rid) := by
  intro x hx
  exact hf x ((List.eraseP_sublist db.regs).mem hx)

theorem ticketsFresh_insert {db db1 : DB} {r : Registration}
    (hf : RegTicketsFresh db) (ht : r.ticketId = db.nextTicket)
    (hins : insertReg { db with nextRid := db.nextRid + 1, nextTicket := db.nextTicket + 1 } r
      = some db1) : RegTicketsFresh db1 := by
  have hdb1 := insertReg_eq_some hins
  intro x hx
  rw [hdb1] at hx ⊢
  simp only [List.mem_append, List.mem_singleton] at hx
  show x.ticketId < db.nextTicket + 1
  rcases hx with hx | hx
  · exact Nat.lt_succ_of_lt (hf x hx)
  · subst hx
    rw [ht]
    exact Nat.lt_succ_self _

theorem ticketsFresh_registerForEventCore (eid uid : Nat) (pt : Option String) (db : DB)
    (e : Event) (hf : RegTicketsFresh db) :
    RegTicketsFresh ((registerForEventCore eid uid pt db e).2) := by
  unfold registerForEventCore
  split
  · exact hf
  split
  · exact hf
  dsimp only []
  split
  · exact hf
  case _ db1 hins =>
    dsimp only []
    have hf1 := ticketsFresh_insert hf rfl hins
    split
    · exact fun x hx => hf1 x hx
    · exact hf1

theorem ticketsFresh_registerForEvent (now : Int) (eid uid : Nat) (pt : Option String)
    (db : DB) (hf : RegTicketsFresh db) :
    RegTicketsFresh ((registerForEvent now eid uid pt db).2) := by
  unfold registerForEvent
  repeat' split
  all_goals first
    | exact hf
    | exact ticketsFresh_registerForEventCore _ _ _ _ _ (ticketsFresh_deleteReg _ hf)
    | exact ticketsFresh_registerForEventCore _ _ _ _ _ hf

theorem ticketsFresh_mkMerchRegistration (eid uid : Nat) (db : DB) (sku nm sz c : String)
    (qty price total : Int) (hf : RegTicketsFresh db) :
    RegTicketsFresh ((mkMerchRegistration eid uid db sku nm sz c qty price total).2) := by
  unfold mkMerchRegistration
  dsimp only []
  split
  · exact hf
  case _ db1 hins => exact ticketsFresh_insert hf rfl hins

theorem ticketsFresh_registerForMerchCore (eid uid : Nat) (pt : Option String)
    (oreq : Option OrderReq) (db : DB) (e : Event) (hf : RegTicketsFresh db) :
    RegTicketsFresh ((registerForMerchCore eid uid pt oreq db e).2) := by
  unfold registerForMerchCore
  repeat' split
  all_goals first
    | exact hf
    | exact ticketsFresh_mkMerchRegistration _ _ _ _ _ _ _ _ _ _ hf

theorem ticketsFresh_registerForMerchEvent (now : Int) (eid uid : Nat) (pt : Option String)
    (oreq : Option OrderReq) (db : DB) (hf : RegTicketsFresh db) :
    RegTicketsFresh ((registerForMerchEvent now eid uid pt oreq db).2) := by
  unfold registerForMerchEvent
  repeat' split
  all_goals first
    | exact hf
    | exact ticketsFresh_registerForMerchCore _ _ _ _ _ _ (ticketsFresh_deleteReg _ hf)
    | exact ticketsFresh_registerForMerchCore _ _ _ _ _ _ hf

theorem ticketsFresh_uploadPaymentProof (rid uid : Nat) (file : Option String) (db : DB)
    (hf : RegTicketsFresh db) : RegTicketsFresh ((uploadPaymentProof rid uid file db).2) := by
  unfold uploadPaymentProof
  repeat' split
  all_goals first
    | exact hf
    | exact ticketsFresh_updateReg_found hf (by assumption) (by rfl)

theorem ticketsFresh_approvePayment (rid actor : Nat) (db : DB)
    (hf : RegTicketsFresh db) : RegTicketsFresh ((approvePayment rid actor db).2) := by
  unfold approvePayment approveFinish
  repeat' split
  all_goals first
    | exact hf
    | exact ticketsFresh_updateReg_found hf (by assumption) (by rfl)
    | exact ticketsFresh_updateReg_found (fun x hx => hf x hx) (by assumption) (by rfl)

theorem ticketsFresh_cancelRegistration (rid uid : Nat) (db : DB)
    (hf : RegTicketsFresh db) : RegTicketsFresh ((cancelRegistration rid uid db).2) := by
  unfold cancelRegistration
  repeat' split
  all_goals first
    | exact hf
    | exact ticketsFresh_updateReg_found hf (by assumption) (by rfl)

theorem ticketsFresh_checkIn (now : Int) (eid actor : Nat) (qrIn : Option (Option QrPayload))
    (db : DB) (hf : RegTicketsFresh db) :
    RegTicketsFresh ((checkIn now eid actor qrIn db).2) := by
  unfold checkIn
  repeat' split
  all_goals first
    | exact hf
    | exact ticketsFresh_updateReg_self hf (mem_of_findRegByTicket (by assumption)) (by rfl)

theorem isSome_of_map_maxP {o1 o2 : Option Event}
    (h : o1.map Event.maxParticipants = o2.map Event.maxParticipants) :
    o1.isSome = o2.isSome := by
  cases o1 <;> cases o2 <;> simp_all

theorem mem_of_findTeamByCode {db : DB} {code : Nat} {p : Nat × Team}
    (h : findTeamByCode db code = some p) : p ∈ db.teams :=
  List.mem_of_find?_eq_some h

theorem mem_of_findTeam {db : DB} {tid : Nat} {t : Team}
    (h : findTeam db tid = some t) : (tid, t) ∈ db.teams := by
  unfold findTeam at h
  cases hf : db.teams.find? (fun p => p.1 == tid) with
  | none => rw [hf] at h; cases h
  | some q =>
    rw [hf] at h
    have hq := List.find?_some hf
    have hqm := List.mem_of_find?_eq_some hf
    have ht : q.2 = t := by simpa using h
    have h1 : q.1 = tid := by simpa using hq
    have hqe : q = (tid, t) := by
      cases q
      simp_all
    rw [← hqe]
    exact hqm

theorem mem_updateTeam_strong {db : DB} {tid : Nat} {t : Team} {p : Nat × Team}
    (hp : p ∈ (updateTeam db tid t).teams) :
    (p ∈ db.teams ∧ p.1 ≠ tid) ∨ p = (tid, t) := by
  unfold updateTeam at hp
  simp only [List.mem_map] at hp
  obtain ⟨q, hq, hqe⟩ := hp
  by_cases h : (q.1 == tid) = true
  · rw [if_pos h] at hqe
    right
    exact hqe.symm
  · rw [if_neg h] at hqe
    left
    constructor
    · rw [← hqe]
      exact hq
    · rw [← hqe]
      simpa using h

theorem mem_updateTeam {db : DB} {tid : Nat} {t : Team} {p : Nat × Team}
    (hp : p ∈ (updateTeam db tid t).teams) : p ∈ db.teams ∨ p = (tid, t) := by
  rcases mem_updateTeam_strong hp with ⟨h1, _⟩ | h1
  · exact Or.inl h1
  · exact Or.inr h1

/-- The state after one successful insert of the batch helper: both
counters bumped and the fresh document appended. -/
def dbInsert (db : DB) (r : Registration) : DB :=
  { db with nextRid := db.nextRid + 1, nextTicket := db.nextTicket + 1,
            regs := db.regs ++ [r] }

theorem insertTeamRegs_success (eid tid : Nat) (ety : EventType) (ms : List TeamMember)
    (db : DB) (hf : RegTicketsFresh db) :
    (insertTeamRegs eid tid ety ms db).1 = true ∧
    ((insertTeamRegs eid tid ety ms db).2).events = db.events ∧
    ((insertTeamRegs eid tid ety ms db).2).teams = db.teams ∧
    RegTicketsFresh ((insertTeamRegs eid tid ety ms db).2) := by
  induction ms generalizing db with
  | nil => exact ⟨rfl, rfl, rfl, hf⟩
  | cons m rest ih =>
    have hok : ((mkTeamReg eid tid ety m.userId db.nextRid db.nextTicket).schemaValid &&
        ({ db with nextRid := db.nextRid + 1, nextTicket := db.nextTicket + 1 } : DB).regs.all
          (fun x => x.ticketId !=
            (mkTeamReg eid tid ety m.userId db.nextRid db.nextTicket).ticketId)) = true := by
      rw [Bool.and_eq_true]
      refine ⟨rfl, ?_⟩
      rw [List.all_eq_true]
      intro x hx
      have hlt := hf x hx
      simp only [mkTeamReg, bne_iff_ne, ne_eq]
      omega
    have hins : insertReg { db with nextRid := db.nextRid + 1, nextTicket := db.nextTicket + 1 }
        (mkTeamReg eid tid ety m.userId db.nextRid db.nextTicket)
        = some (dbInsert db (mkTeamReg eid tid ety m.userId db.nextRid db.nextTicket)) := by
      unfold insertReg dbInsert
      rw [if_pos hok]
    have hstep : insertTeamRegs eid tid ety (m :: rest) db
        = insertTeamRegs eid tid ety rest
            (dbInsert db (mkTeamReg eid tid ety m.userId db.nextRid db.nextTicket)) := by
      conv_lhs => rw [insertTeamRegs]
      rw [hins]
    rw [hstep]
    have hf1 : RegTicketsFresh
        (dbInsert db (mkTeamReg eid tid ety m.userId db.nextRid db.nextTicket)) := by
      intro x hx
      have hx' : x ∈ db.regs ++ [mkTeamReg eid tid ety m.userId db.nextRid db.nextTicket] := hx
      show x.ticketId < db.nextTicket + 1
      rcases List.mem_append.mp hx' with hx2 | hx2
      · exact Nat.lt_succ_of_lt (hf x hx2)
      · rw [List.mem_singleton] at hx2
        subst hx2
        exact Nat.lt_succ_self _
    obtain ⟨h1, h2, h3, h4⟩ := ih _ hf1
    exact ⟨h1, h2.trans rfl, h3.trans rfl, h4⟩

theorem registerTeamFn_spec (now : Int) (tid : Nat) (t : Team) (db : DB) (e : Event)
    (he : findEvent db t.eventId = some e) (hf : RegTicketsFresh db) :
    ∃ db2, registerTeamFn now tid t db = (true, db2) ∧
      db2.events = db.events ∧
      RegTicketsFresh db2 ∧
      (∀ p ∈ db2.teams, (p ∈ db.teams ∧ p.1 ≠ tid) ∨
        p = (tid, { t with status := TeamStatus.REGISTERED, registeredAt := some now })) := by
  unfold registerTeamFn
  rw [he]
  dsimp only []
  obtain ⟨h1, h2, h3, h4⟩ := insertTeamRegs_success t.eventId tid e.etype
    (t.members.filter (fun m => m.status == MemberStatus.ACCEPTED)) db hf
  rcases hres : insertTeamRegs t.eventId tid e.etype
      (t.members.filter (fun m => m.status == MemberStatus.ACCEPTED)) db with ⟨b, db1⟩
  rw [hres] at h1 h2 h3 h4
  have hb : b = true := h1
  subst hb
  dsimp only []
  refine ⟨updateTeam db1 tid
    { t with status := TeamStatus.REGISTERED, registeredAt := some now }, rfl, ?_, ?_, ?_⟩
  · exact h2
  · exact fun x hx => h4 x hx
  · intro p hp
    rcases mem_updateTeam_strong hp with ⟨hp1, hp2⟩ | hp1
    · rw [h3] at hp1
      exact Or.inl ⟨hp1, hp2⟩
    · exact Or.inr hp1

theorem registerTeamFn_true {now : Int} {tid : Nat} {t : Team} {db : DB} {b : Bool} {db2 : DB}
    (hrun : registerTeamFn now tid t db = (b, db2))
    (he : (findEvent db t.eventId).isSome = true) (hf : RegTicketsFresh db) :
    b = true ∧ db2.events = db.events ∧ RegTicketsFresh db2 ∧
    (∀ p ∈ db2.teams, (p ∈ db.teams ∧ p.1 ≠ tid) ∨
      p = (tid, { t with status := TeamStatus.REGISTERED, registeredAt := some now })) := by
  obtain ⟨e, he'⟩ := Option.isSome_iff_exists.mp he
  obtain ⟨db2', h1, h2, h3, h4⟩ := registerTeamFn_spec now tid t db e he' hf
  have hpair : (b, db2) = (true, db2') := hrun.symm.trans h1
  have hb : b = true := congrArg Prod.fst hpair
  have hdb : db2 = db2' := congrArg Prod.snd hpair
  subst hdb
  exact ⟨hb, h2, h3, h4⟩

/-- TeamsWF transfer along a request that leaves the team list unchanged,
preserves which events exist, and keeps ticket freshness. -/
theorem teamsWF_of_parts {db db' : DB} (hteams : db'.teams = db.teams)
    (hev : ∀ k, (findEvent db' k).isSome = (findEvent db k).isSome)
    (hfr : RegTicketsFresh db') (hwf : TeamsWF db) : TeamsWF db' := by
  refine ⟨hfr, fun p hp => ?_⟩
  rw [hteams] at hp
  obtain ⟨h1, h2⟩ := hwf.2 p hp
  exact ⟨(hev p.2.eventId).trans h1, h2⟩

theorem teamsWF_createTeam (now : Int) (eid leaderId : Nat) (nm : String) (ts : Int)
    (db : DB) (hwf : TeamsWF db) : TeamsWF ((createTeam now eid leaderId nm ts db).2) := by
  obtain ⟨hf, hteams⟩ := hwf
  unfold createTeam
  split
  · exact ⟨hf, hteams⟩
  case _ e heq =>
    split
    · exact ⟨hf, hteams⟩
    split
    · exact ⟨hf, hteams⟩
    split
    · exact ⟨hf, hteams⟩
    split
    · exact ⟨hf, hteams⟩
    dsimp only []
    split
    case _ hsz =>
      split
      · exact ⟨hf, hteams⟩
      case _ hsv =>
        exfalso
        have h1 : ts = 1 := by simpa using hsz
        simp [Team.schemaValid, h1] at hsv
    case _ hsz =>
      split
      · exact ⟨hf, hteams⟩
      case _ hsv =>
        have h2 : (2 : Int) ≤ ts := by simpa [Team.schemaValid] using hsv
        constructor
        · exact fun x hx => hf x hx
        · intro p hp
          rcases List.mem_append.mp hp with hp2 | hp2
          · obtain ⟨hev3, hinv3⟩ := hteams p hp2
            exact ⟨hev3, hinv3⟩
          · rw [List.mem_singleton] at hp2
            subst hp2
            constructor
            · show (findEvent db eid).isSome = true
              rw [heq]
              rfl
            · refine ⟨h2, ?_, ?_, ?_, ?_⟩
              · intro _
                show ((1 : Nat) : Int) < ts
                omega
              · intro hc
                cases show TeamStatus.FORMING = TeamStatus.COMPLETE from hc
              · intro hc
                cases show TeamStatus.FORMING = TeamStatus.REGISTERED from hc
              · intro hc
                cases show TeamStatus.FORMING = TeamStatus.CANCELLED from hc

theorem teamsWF_leaveTeam (tid uid : Nat) (db : DB) (hwf : TeamsWF db) :
    TeamsWF ((leaveTeam tid uid db).2) := by
  obtain ⟨hf, hteams⟩ := hwf
  unfold leaveTeam
  split
  · exact ⟨hf, hteams⟩
  case _ t ht =>
    split
    · exact ⟨hf, hteams⟩
    case _ hnreg =>
      split
      · exact ⟨hf, hteams⟩
      dsimp only []
      split
      case _ hcomp =>
        exfalso
        exact ((hteams (tid, t) (mem_of_findTeam ht)).2).2.2.1 (by simpa using hcomp)
      case _ hcomp =>
        split
        · exact ⟨hf, hteams⟩
        case _ hsv =>
          obtain ⟨hev, hinv⟩ := hteams (tid, t) (mem_of_findTeam ht)
          obtain ⟨hsz2, hformLt, hcompF, hregEq, hcancLt⟩ := hinv
          dsimp only [] at hev hsz2 hformLt hcompF hregEq hcancLt
          have hacc : accCount { t with members := t.members.filter (fun m => m.userId != uid) } ≤ accCount t :=
            List.Sublist.countP_le _ (List.filter_sublist _)
          constructor
          · exact fun x hx => hf x hx
          · intro p hp
            rcases mem_updateTeam hp with hp2 | hp2
            · obtain ⟨hev3, hinv3⟩ := hteams p hp2
              exact ⟨hev3, hinv3⟩
            · subst hp2
              dsimp only []
              refine ⟨hev, hsz2, ?_, ?_, ?_, ?_⟩
              · intro hst
                have hst' : t.status = TeamStatus.FORMING := hst
                have hlt := hformLt hst'
                have hgoal : (accCount { t with members := t.members.filter (fun m => m.userId != uid) } : Int) < t.teamSize := by omega
                exact hgoal
              · intro hc
                exact hcompF hc
              · intro hc
                have hc' : t.status = TeamStatus.REGISTERED := hc
                exact absurd (by simp [hc']) hnreg
              · intro hc
                have hc' : t.status = TeamStatus.CANCELLED := hc
                have hlt := hcancLt hc'
                have hgoal : (accCount { t with members := t.members.filter (fun m => m.userId != uid) } : Int) < t.teamSize := by omega
                exact hgoal

theorem teamsWF_cancelTeam (tid uid : Nat) (db : DB) (hwf : TeamsWF db) :
    TeamsWF ((cancelTeam tid uid db).2) := by
  obtain ⟨hf, hteams⟩ := hwf
  unfold cancelTeam
  split
  · exact ⟨hf, hteams⟩
  case _ t ht =>
    split
    · exact ⟨hf, hteams⟩
    split
    · exact ⟨hf, hteams⟩
    case _ hnreg =>
      dsimp only []
      split
      · exact ⟨hf, hteams⟩
      case _ hsv =>
        obtain ⟨hev, hinv⟩ := hteams (tid, t) (mem_of_findTeam ht)
        obtain ⟨hsz2, hformLt, hcompF, hregEq, hcancLt⟩ := hinv
        dsimp only [] at hev hsz2 hformLt hcompF hregEq hcancLt
        constructor
        · exact fun x hx => hf x hx
        · intro p hp
          rcases mem_updateTeam hp with hp2 | hp2
          · obtain ⟨hev3, hinv3⟩ := hteams p hp2
            exact ⟨hev3, hinv3⟩
          · subst hp2
            dsimp only []
            refine ⟨hev, hsz2, ?_, ?_, ?_, ?_⟩
            · intro hc
              cases show TeamStatus.CANCELLED = TeamStatus.FORMING from hc
            · intro hc
              cases show TeamStatus.CANCELLED = TeamStatus.COMPLETE from hc
            · intro hc
              cases show TeamStatus.CANCELLED = TeamStatus.REGISTERED from hc
            · intro _
              cases hts : t.status with
              | FORMING => exact hformLt hts
              | COMPLETE => exact (hcompF hts).elim
              | REGISTERED => exact absurd (by simp [hts]) hnreg
              | CANCELLED => exact hcancLt hts

theorem teamsWF_joinTeamCore (now : Int) (tid : Nat) (t : Team) (uid : Nat) (db : DB)
    (hwf : TeamsWF db) (hmem : (tid, t) ∈ db.teams)
    (hform : t.status = TeamStatus.FORMING) :
    TeamsWF ((joinTeamCore now tid t uid db).2) := by
  obtain ⟨hf, hteams⟩ := hwf
  obtain ⟨hev, hinv⟩ := hteams (tid, t) hmem
  obtain ⟨hsz2, hformLt, hcompF, hregEq, hcancLt⟩ := hinv
  dsimp only [] at hev hsz2 hformLt hcompF hregEq hcancLt
  unfold joinTeamCore
  split
  · exact ⟨hf, hteams⟩
  case _ hfull =>
    split
    · exact ⟨hf, hteams⟩
    split
    · exact ⟨hf, hteams⟩
    dsimp only []
    split
    case _ hcEq =>
      split
      case _ hsv =>
        exfalso
        simp [Team.schemaValid] at hsv
        omega
      case _ hsv =>
        split
        case _ db2 hrun =>
          obtain ⟨_, hevs, hfr2, hmem2⟩ :=
            registerTeamFn_true hrun (by exact hev) (fun x hx => hf x hx)
          refine ⟨hfr2, ?_⟩
          intro p hp
          rcases hmem2 p hp with ⟨hp1, hne⟩ | hp1
          · rcases mem_updateTeam_strong hp1 with ⟨hp3, _⟩ | hp3
            · obtain ⟨hev3, hinv3⟩ := hteams p hp3
              refine ⟨?_, hinv3⟩
              have hcon : findEvent db2 p.2.eventId = findEvent db p.2.eventId :=
                findEvent_congr (hevs.trans rfl) _
              rw [hcon]
              exact hev3
            · exfalso
              exact hne (by rw [hp3])
          · subst hp1
            dsimp only []
            constructor
            · show (findEvent db2 t.eventId).isSome = true
              have hcon : findEvent db2 t.eventId = findEvent db t.eventId :=
                findEvent_congr (hevs.trans rfl) _
              rw [hcon]
              exact hev
            · refine ⟨hsz2, ?_, ?_, ?_, ?_⟩
              · intro hc
                cases show TeamStatus.REGISTERED = TeamStatus.FORMING from hc
              · intro hc
                cases show TeamStatus.REGISTERED = TeamStatus.COMPLETE from hc
              · intro _
                have hq : (accCount { t with members := t.members ++ [{ userId := uid, status := MemberStatus.ACCEPTED, joinedAt := some now }] } : Int) = t.teamSize := by
                  simpa using hcEq
                exact hq
              · intro hc
                cases show TeamStatus.REGISTERED = TeamStatus.CANCELLED from hc
        case _ db2 hrun =>
          obtain ⟨hb, _⟩ :=
            registerTeamFn_true hrun (by exact hev) (fun x hx => hf x hx)
          cases hb
    case _ hcEq =>
      split
      case _ hsv =>
        exfalso
        simp [Team.schemaValid] at hsv
        omega
      case _ hsv =>
        have hlt : ((accCount t : Nat) : Int) < t.teamSize := by
          have h0 : ¬ (t.teamSize ≤ ((accCount t : Nat) : Int)) := by simpa using hfull
          omega
        have hacc1 : accCount { t with members := t.members ++ [{ userId := uid, status := MemberStatus.ACCEPTED, joinedAt := some now }] } = accCount t + 1 := by
          simp [accCount, List.countP_append]
        have hne2 : (accCount { t with members := t.members ++ [{ userId := uid, status := MemberStatus.ACCEPTED, joinedAt := some now }] } : Int) ≠ t.teamSize := by
          simpa using hcEq
        constructor
        · exact fun x hx => hf x hx
        · intro p hp
          rcases mem_updateTeam hp with hp2 | hp2
          · obtain ⟨hev3, hinv3⟩ := hteams p hp2
            exact ⟨hev3, hinv3⟩
          · subst hp2
            dsimp only []
            refine ⟨hev, hsz2, ?_, ?_, ?_, ?_⟩
            · intro _
              have hgoal : (accCount { t with members := t.members ++ [{ userId := uid, status := MemberStatus.ACCEPTED, joinedAt := some now }] } : Int) < t.teamSize := by omega
              exact hgoal
            · intro hc
              have hc' : t.status = TeamStatus.COMPLETE := hc
              rw [hform] at hc'
              cases hc'
            · intro hc
              have hc' : t.status = TeamStatus.REGISTERED := hc
              rw [hform] at hc'
              cases hc'
            · intro hc
              have hc' : t.status = TeamStatus.CANCELLED := hc
              rw [hform] at hc'
              cases hc'

theorem teamsWF_joinTeam (now : Int) (code uid : Nat) (db : DB) (hwf : TeamsWF db) :
    TeamsWF ((joinTeam now code uid db).2) := by
  unfold joinTeam
  split
  · exact hwf
  case _ tid t hfind =>
    split
    · exact hwf
    case _ hst =>
      have hform : t.status = TeamStatus.FORMING := by simpa using hst
      split
      case _ m hm =>
        split
        · exact hwf
        split
        · exact hwf
        exact teamsWF_joinTeamCore now tid t uid db hwf (mem_of_findTeamByCode hfind) hform
      case _ hm =>
        exact teamsWF_joinTeamCore now tid t uid db hwf (mem_of_findTeamByCode hfind) hform

theorem stocksNonNeg_registerForEventCore (eid uid : Nat) (pt : Option String) (db : DB)
    (e : Event) (he : findEvent db eid = some e) (hs : stocksNonNeg db) :
    stocksNonNeg ((registerForEventCore eid uid pt db e).2) := by
  unfold registerForEventCore
  split
  · exact hs
  split
  · exact hs
  dsimp only []
  split
  · exact hs
  case _ db1 hins =>
    dsimp only []
    split
    case _ hlock =>
      have hdb1 := insertReg_eq_some hins
      subst hdb1
      exact stocksNonNeg_updateEvent_items (stocksNonNeg_congr rfl hs) he rfl
    case _ hlock =>
      have hdb1 := insertReg_eq_some hins
      subst hdb1
      exact stocksNonNeg_congr rfl hs

theorem stocksNonNeg_registerForEvent (now : Int) (eid uid : Nat) (pt : Option String)
    (db : DB) (hs : stocksNonNeg db) :
    stocksNonNeg ((registerForEvent now eid uid pt db).2) := by
  unfold registerForEvent
  repeat' split
  all_goals first
    | exact hs
    | exact stocksNonNeg_registerForEventCore _ _ _ _ _ (by assumption) hs
    | exact stocksNonNeg_registerForEventCore _ _ _ _ _
        ((findEvent_deleteReg db _ _).trans (by assumption)) (stocksNonNeg_congr rfl hs)

theorem stocksNonNeg_approvePayment (rid actor : Nat) (db : DB) (hs : stocksNonNeg db) :
    stocksNonNeg ((approvePayment rid actor db).2) := by
  unfold approvePayment approveFinish
  repeat' split
  all_goals first
    | exact hs
    | exact stocksNonNeg_congr (updateReg_events _ _ _) hs
    | (rename_i hq
       apply stocksNonNeg_congr (updateReg_events _ _ _)
       exact stocksNonNeg_updateEvent_adjust_sub hs (by assumption) (by assumption)
         (by assumption) (by simpa using hq))

theorem stocksNonNeg_applyOp (now : Int) (op : Op) (db : DB) (hs : stocksNonNeg db) :
    stocksNonNeg (applyOp now op db) := by
  cases op with
  | opRegisterEvent eid uid pt => exact stocksNonNeg_registerForEvent now eid uid pt db hs
  | opRegisterMerch eid uid pt oreq =>
    exact stocksNonNeg_congr (events_registerForMerchEvent now eid uid pt oreq db) hs
  | opUploadProof rid uid file =>
    exact stocksNonNeg_congr (events_uploadPaymentProof rid uid file db) hs
  | opApprove rid actor => exact stocksNonNeg_approvePayment rid actor db hs
  | opCancelReg rid uid =>
    exact stocksNonNeg_congr (events_cancelRegistration rid uid db) hs
  | opCheckIn eid actor q =>
    exact stocksNonNeg_congr (events_checkIn now eid actor q db) hs
  | opCreateTeam eid l nm ts =>
    exact stocksNonNeg_congr (events_createTeam now eid l nm ts db) hs
  | opJoinTeam code uid =>
    exact stocksNonNeg_congr (events_joinTeam now code uid db) hs
  | opLeaveTeam tid uid =>
    exact stocksNonNeg_congr (events_leaveTeam tid uid db) hs
  | opCancelTeam tid uid =>
    exact stocksNonNeg_congr (events_cancelTeam tid uid db) hs

theorem stocksNonNeg_run (trace : List (Int × Op)) (db : DB) (hs : stocksNonNeg db) :
    stocksNonNeg (run trace db) := by
  induction trace generalizing db with
  | nil => exact hs
  | cons p rest ih => exact ih _ (stocksNonNeg_applyOp p.1 p.2 db hs)

theorem teamsWF_applyOp (now : Int) (op : Op) (db : DB) (hwf : TeamsWF db) :
    TeamsWF (applyOp now op db) := by
  cases op with
  | opRegisterEvent eid uid pt =>
    exact teamsWF_of_parts (teams_registerForEvent now eid uid pt db)
      (fun k => isSome_of_map_maxP (maxP_registerForEvent now eid uid pt db k))
      (ticketsFresh_registerForEvent now eid uid pt db hwf.1) hwf
  | opRegisterMerch eid uid pt oreq =>
    exact teamsWF_of_parts (teams_registerForMerchEvent now eid uid pt oreq db)
      (fun k => by dsimp only [applyOp]; rw [findEvent_congr (events_registerForMerchEvent now eid uid pt oreq db) k])
      (ticketsFresh_registerForMerchEvent now eid uid pt oreq db hwf.1) hwf
  | opUploadProof rid uid file =>
    exact teamsWF_of_parts (teams_uploadPaymentProof rid uid file db)
      (fun k => by dsimp only [applyOp]; rw [findEvent_congr (events_uploadPaymentProof rid uid file db) k])
      (ticketsFresh_uploadPaymentProof rid uid file db hwf.1) hwf
  | opApprove rid actor =>
    exact teamsWF_of_parts (teams_approvePayment rid actor db)
      (fun k => isSome_of_map_maxP (maxP_approvePayment rid actor db k))
      (ticketsFresh_approvePayment rid actor db hwf.1) hwf
  | opCancelReg rid uid =>
    exact teamsWF_of_parts (teams_cancelRegistration rid uid db)
      (fun k => by dsimp only [applyOp]; rw [findEvent_congr (events_cancelRegistration rid uid db) k])
      (ticketsFresh_cancelRegistration rid uid db hwf.1) hwf
  | opCheckIn eid actor q =>
    exact teamsWF_of_parts (teams_checkIn now eid actor q db)
      (fun k => by dsimp only [applyOp]; rw [findEvent_congr (events_checkIn now eid actor q db) k])
      (ticketsFresh_checkIn now eid actor q db hwf.1) hwf
  | opCreateTeam eid l nm ts => exact teamsWF_createTeam now eid l nm ts db hwf
  | opJoinTeam code uid => exact teamsWF_joinTeam now code uid db hwf
  | opLeaveTeam tid uid => exact teamsWF_leaveTeam tid uid db hwf
  | opCancelTeam tid uid => exact teamsWF_cancelTeam tid uid db hwf

theorem teamsWF_initDB (events0 : List (Nat × Event)) : TeamsWF (initDB events0) := by
  constructor
  · intro r hr
    exact absurd hr (by simp [initDB])
  · intro p hp
    exact absurd hp (by simp [initDB])

theorem teamsWF_run (trace : List (Int × Op)) (db : DB) (hwf : TeamsWF db) :
    TeamsWF (run trace db) := by
  induction trace generalizing db with
  | nil => exact hwf
  | cons p rest ih => exact ih _ (teamsWF_applyOp p.1 p.2 db hwf)

/-- Claim C2, amended: variant stocks never go negative under any request
sequence from a deployment whose stocks start non-negative — approvePayment
refuses to decrement below zero — but the trade never reverses: once the
order of a merchandise registration is APPROVED, cancelRegistration
refuses it outright with the 400 error and changes nothing, so no
successful cancellation ever restores stock. -/
theorem c2_stock_amended :
    stockSafetyClaim ∧
    (∀ (db : DB) (rid uid : Nat) (r : Registration),
      findReg db rid = some r →
      r.participantId = uid →
      r.status ≠ RegStatus.CANCELLED →
      r.rtype = EventType.MERCH →
      r.order.map MerchOrder.paymentStatus = some PayStatus.APPROVED →
      cancelRegistration rid uid db =
        (.err 400 "Cannot cancel approved merchandise orders. Please contact the organizer.",
         db)) := by
  constructor
  · intro events0 trace hs
    exact stocksNonNeg_run trace (initDB events0) hs
  · intro db rid uid r hr hpid hst hty hord
    subst hpid
    unfold cancelRegistration
    rw [hr]
    simp [hst, hty, hord]

/-- Claim C1, amended: over traces whose requests all go through the two
registration endpoints with their capacity check — everything except
joinTeam's batch registration and approvePayment, the two uncapped
writers — the number of non-CANCELLED registrations of an event never
exceeds its positive maxParticipants cap. -/
theorem c1_capacity_amended (events0 : List (Nat × Event)) (trace : List (Int × Op))
    (eid : Nat) (e : Event) (N : Int)
    (hops : ∀ p ∈ trace, capacityCheckedOp p.2 = true)
    (hfind : findEvent (run trace (initDB events0)) eid = some e)
    (hmp : e.maxParticipants = some N) (hN : 0 < N) :
    (countNonCancelled (run trace (initDB events0)) eid : Int) ≤ N := by
  have hmax := maxP_run_allowed trace (initDB events0) eid hops
  rw [hfind] at hmax
  cases hf : findEvent (initDB events0) eid with
  | none => rw [hf] at hmax; cases hmax
  | some e0 =>
    rw [hf] at hmax
    have he0 : e0.maxParticipants = some N := by
      have heq : e.maxParticipants = e0.maxParticipants := by simpa using hmax
      rw [← heq, hmp]
    have hinit : CapInv eid N (initDB events0) := by
      refine ⟨⟨?_, ?_⟩, ⟨e0, hf, he0⟩, ?_⟩
      · intro r hr
        exact absurd hr (by simp [initDB])
      · simp [initDB]
      · have h0 : countNonCancelled (initDB events0) eid = 0 := rfl
        rw [h0]
        simpa using hN.le
    exact (capInv_run trace (initDB events0) eid N hops hN hinit).2.2

/-- Claim C4: after any request sequence from a fresh deployment a stored
team is REGISTERED exactly when its ACCEPTED member count equals
teamSize; and the concrete size-3 run (leader 10 creates the team, 11 and
12 join) stores exactly three CONFIRMED registrations, all carrying
teamId 0, with pairwise distinct tickets 0, 1 and 2, while the team ends
REGISTERED. -/
theorem c4_team_registered :
    teamRegisteredIffClaim ∧
    (run c4Trace (initDB [(1, c4Event)])).regs.map
        (fun r => (r.participantId, r.teamId, r.status, r.ticketId))
      = [(10, some 0, RegStatus.CONFIRMED, 0), (11, some 0, RegStatus.CONFIRMED, 1),
         (12, some 0, RegStatus.CONFIRMED, 2)] ∧
    (findTeam (run c4Trace (initDB [(1, c4Event)])) 0).map Team.status
      = some TeamStatus.REGISTERED := by
  refine ⟨?_, by decide, by decide⟩
  intro events0 trace tid t hmem
  have hwf := teamsWF_run trace (initDB events0) (teamsWF_initDB events0)
  have hpair := (hwf.2 (tid, t) hmem).2
  dsimp only [] at hpair
  obtain ⟨hsz2, hformLt, hcompF, hregEq, hcancLt⟩ := hpair
  constructor
  · exact fun h => hregEq h
  · intro heq
    cases hts : t.status with
    | FORMING =>
      exfalso
      have hlt := hformLt hts
      omega
    | COMPLETE => exact (hcompF hts).elim
    | REGISTERED => rfl
    | CANCELLED =>
      exfalso
      have hlt := hcancLt hts
      omega

/-- Witness for the amended C1: one ordinary registration request against
the one-seat event leaves the non-CANCELLED count within the cap. -/
theorem c1_capacity_amended_witness :
    (countNonCancelled (run [(0, Op.opRegisterEvent 1 10 none)]
      (initDB [(1, c1TeamEvent)])) 1 : Int) ≤ 1 :=
  c1_capacity_amended [(1, c1TeamEvent)] [(0, Op.opRegisterEvent 1 10 none)] 1
    c1TeamEvent 1 (by decide) (by decide) rfl (by decide)

end Felicity
